import Mathlib

/-!
Verification development for the toolkit-manifest subsystem: a shallow
embedding of `scripts/toolkit_manifest_utils.py` (marker-delimited block
replacement and extraction, install-block rendering, runtime-registry
projection, manifest structural validation), of the keyword router in
`scripts/validate_agent_routing.py`, and of the trigger-uniqueness check in
`scripts/validate_skill_routing.py`.

Text is modelled as `List Char`; JSON-like documents as the inductive
`JValue`; Python operations that can raise are modelled in `Except String`.
-/

set_option maxHeartbeats 1000000
set_option maxRecDepth 4096

/-! ## Python string primitives -/

/-- Python's `str.find(pat)` on a text `s`: index of the first position `i`
with `pat` occurring at `i`, else `none` (Python returns `-1`). -/
def findFrom (pat : List Char) : List Char → Option Nat
  | [] => if pat = [] then some 0 else none
  | c :: rest =>
    if (c :: rest).take pat.length = pat then some 0
    else (findFrom pat rest).map (· + 1)

/-- Python's non-overlapping `str.count` scan for a non-empty pattern
`p :: ps`, written with an explicit skip counter so that it is structurally
recursive: after a hit the scan advances past the whole pattern. -/
def countSkip (p : Char) (ps : List Char) : List Char → Nat → Nat
  | [], _ => 0
  | _ :: rest, Nat.succ k => countSkip p ps rest k
  | c :: rest, 0 =>
    if (c :: rest).take (ps.length + 1) = p :: ps then
      1 + countSkip p ps rest ps.length
    else
      countSkip p ps rest 0

/-- Python's `text.count(pat)`: number of non-overlapping occurrences,
scanning left to right; an empty pattern counts `len(text) + 1` times. -/
def pyCount (s pat : List Char) : Nat :=
  match pat with
  | [] => s.length + 1
  | p :: ps => countSkip p ps s 0

/-- Python's `str.lower` on a single character (ASCII case folding). -/
def pyLower (c : Char) : Char := c.toLower

/-! ### Characterisation of `findFrom` -/

theorem findFrom_eq_some_iff (pat s : List Char) (i : Nat) :
    findFrom pat s = some i ↔
      ((s.drop i).take pat.length = pat ∧
        ∀ j < i, ¬ (s.drop j).take pat.length = pat) := by
  induction s generalizing i with
  | nil =>
    simp only [findFrom]
    by_cases hp : pat = []
    · subst hp
      simp only [if_pos rfl]
      constructor
      · rintro h
        cases h
        simp
      · rintro ⟨-, hmin⟩
        by_contra hne
        have hi : 0 < i := Nat.pos_of_ne_zero (by rintro rfl; exact hne rfl)
        exact hmin 0 hi (by simp)
    · simp only [if_neg hp]
      constructor
      · rintro ⟨⟩
      · rintro ⟨h, -⟩
        exact absurd (by simpa using h.symm) hp
  | cons c rest ih =>
    simp only [findFrom]
    by_cases h0 : (c :: rest).take pat.length = pat
    · simp only [if_pos h0]
      constructor
      · rintro h
        cases h
        exact ⟨by simpa using h0, by omega⟩
      · rintro ⟨hocc, hmin⟩
        by_contra hne
        have hi : 0 < i := Nat.pos_of_ne_zero (by rintro rfl; exact hne rfl)
        exact hmin 0 hi (by simpa using h0)
    · simp only [if_neg h0]
      constructor
      · intro h
        obtain ⟨j, hj, rfl⟩ := Option.map_eq_some'.mp h
        obtain ⟨hocc, hmin⟩ := (ih j).mp hj
        refine ⟨by simpa using hocc, ?_⟩
        intro k hk
        match k with
        | 0 => simpa using h0
        | Nat.succ k' =>
          have := hmin k' (by omega)
          simpa using this
      · rintro ⟨hocc, hmin⟩
        match i with
        | 0 => exact absurd (by simpa using hocc) h0
        | Nat.succ i' =>
          have hocc' : (rest.drop i').take pat.length = pat := by simpa using hocc
          have hmin' : ∀ j < i', ¬ (rest.drop j).take pat.length = pat := by
            intro j hj
            have := hmin (j + 1) (by omega)
            simpa using this
          rw [(ih i').mpr ⟨hocc', hmin'⟩]
          rfl

theorem findFrom_eq_none_iff (pat s : List Char) :
    findFrom pat s = none ↔ ∀ j, ¬ (s.drop j).take pat.length = pat := by
  induction s with
  | nil =>
    simp only [findFrom]
    by_cases hp : pat = []
    · subst hp
      simp
    · simp only [if_neg hp]
      constructor
      · intro _ j
        simpa using fun h => hp (by simpa using h.symm)
      · intro _
        trivial
  | cons c rest ih =>
    simp only [findFrom]
    by_cases h0 : (c :: rest).take pat.length = pat
    · simp only [if_pos h0]
      constructor
      · rintro ⟨⟩
      · intro h
        exact absurd (by simpa using h0) (by simpa using h 0)
    · simp only [if_neg h0, Option.map_eq_none']
      rw [ih]
      constructor
      · intro h j
        match j with
        | 0 => simpa using h0
        | Nat.succ j' => simpa using h j'
      · intro h j
        have := h (j + 1)
        simpa using this

/-- An occurrence found by `findFrom` starts inside the text. -/
theorem findFrom_le_length (pat s : List Char) (i : Nat)
    (hpat : pat ≠ []) (h : findFrom pat s = some i) : i + pat.length ≤ s.length := by
  obtain ⟨hocc, -⟩ := (findFrom_eq_some_iff pat s i).mp h
  have hlen := congrArg List.length hocc
  simp only [List.length_take, List.length_drop] at hlen
  have hp : 0 < pat.length := List.length_pos.mpr hpat
  omega

/-! ### Occurrence lemmas

`(s.drop i).take pat.length = pat` says that `pat` occurs in `s` at
position `i`. -/

theorem drop_take_comm (l : List Char) (n m : Nat) :
    (l.drop n).take m = (l.take (n + m)).drop n := by
  rw [List.drop_take]
  congr 1
  omega

theorem occurs_length_le {pat s : List Char} {i : Nat} (hpat : pat ≠ [])
    (h : (s.drop i).take pat.length = pat) : i + pat.length ≤ s.length := by
  have hlen := congrArg List.length h
  simp only [List.length_take, List.length_drop] at hlen
  have hp : 0 < pat.length := List.length_pos.mpr hpat
  omega

theorem occurs_append_left_iff {pat a b : List Char} {i : Nat}
    (h : i + pat.length ≤ a.length) :
    ((a ++ b).drop i).take pat.length = pat ↔ (a.drop i).take pat.length = pat := by
  rw [List.drop_append_eq_append_drop, List.take_append_eq_append_take]
  have h1 : (a.drop i).length = a.length - i := List.length_drop i a
  have h2 : pat.length - (a.drop i).length = 0 := by omega
  rw [h2]
  simp

theorem occurs_append_right {pat a b : List Char} {i : Nat} (h : a.length ≤ i) :
    ((a ++ b).drop i).take pat.length = ((b.drop (i - a.length)).take pat.length) := by
  rw [List.drop_append_eq_append_drop]
  have h1 : a.drop i = [] := List.drop_eq_nil_of_le h
  rw [h1]
  simp

theorem occurs_getElem {pat s : List Char} {i j : Nat}
    (h : (s.drop i).take pat.length = pat) (hj : j < pat.length) :
    s[i + j]? = pat[j]? := by
  conv_rhs => rw [← h]
  rw [List.getElem?_take, if_pos hj, List.getElem?_drop]

theorem char_mem_of_occurs_cross {pat a b : List Char} {c : Char} {i : Nat}
    (h : ((a ++ c :: b).drop i).take pat.length = pat)
    (h1 : i ≤ a.length) (h2 : a.length < i + pat.length) : c ∈ pat := by
  have hj : a.length - i < pat.length := by omega
  have hget := occurs_getElem h hj
  have hi : i + (a.length - i) = a.length := by omega
  rw [hi, List.getElem?_append_right (Nat.le_refl _)] at hget
  simp only [Nat.sub_self] at hget
  have : pat[a.length - i]? = some c := by simpa using hget.symm
  obtain ⟨hlt, rfl⟩ := List.getElem?_eq_some.mp this
  exact List.getElem_mem hlt

/-- Occurrences below a common take-agreement bound coincide. -/
theorem occurs_of_take_agree {pat s t : List Char} {n j : Nat}
    (hagree : s.take n = t.take n) (hj : j + pat.length ≤ n) :
    ((s.drop j).take pat.length = pat ↔ (t.drop j).take pat.length = pat) := by
  have hs : (s.drop j).take pat.length = ((s.take n).drop j).take pat.length := by
    rw [drop_take_comm, drop_take_comm, List.take_take]
    congr 2
    omega
  have ht : (t.drop j).take pat.length = ((t.take n).drop j).take pat.length := by
    rw [drop_take_comm, drop_take_comm, List.take_take]
    congr 2
    omega
  rw [hs, ht, hagree]

/-- A non-empty pattern that contains no newline cannot occur across a
newline separator: an occurrence in `a ++ '\n' :: b` lies in `a` or in `b`. -/
theorem occurs_split_newline {pat a b : List Char} {i : Nat}
    (hpat : pat ≠ []) (hnl : '\n' ∉ pat)
    (h : ((a ++ '\n' :: b).drop i).take pat.length = pat) :
    (i + pat.length ≤ a.length ∧ (a.drop i).take pat.length = pat) ∨
      (a.length + 1 ≤ i ∧ (b.drop (i - a.length - 1)).take pat.length = pat) := by
  by_cases hle : i + pat.length ≤ a.length
  · exact Or.inl ⟨hle, (occurs_append_left_iff hle).mp h⟩
  · by_cases hge : a.length + 1 ≤ i
    · refine Or.inr ⟨hge, ?_⟩
      have := @occurs_append_right pat a ('\n' :: b) i (by omega)
      rw [this] at h
      have hd : ('\n' :: b).drop (i - a.length) = b.drop (i - a.length - 1) := by
        have : i - a.length = (i - a.length - 1) + 1 := by omega
        rw [this]
        rfl
      rw [hd] at h
      exact h
    · exfalso
      have h1 : i ≤ a.length := by omega
      have h2 : a.length < i + pat.length := by omega
      exact hnl (char_mem_of_occurs_cross h h1 h2)

deriving instance DecidableEq for Except

/-! ## Routing Scorer (`scripts/validate_agent_routing.py`, `route_query`) -/

/-- Embedding of `route_query`: lowercase the query, score every agent by the
sum of non-overlapping lowercased-keyword occurrence counts, return the agent
with the strictly highest score, or `none` when the maximum is zero or the
maximum is shared (`len(winners) != 1`). -/
def route_query (query : List Char) (keyword_map : List (String × List (List Char))) :
    Option String × List (String × Nat) :=
  let text := query.map pyLower
  let scores := keyword_map.map fun p =>
    (p.1, (p.2.map fun keyword => pyCount text (keyword.map pyLower)).sum)
  let best_score := ((scores.map Prod.snd).max?).getD 0
  if best_score = 0 then (none, scores)
  else
    match (scores.filter fun p => p.2 == best_score).map Prod.fst with
    | [winner] => (some winner, scores)
    | _ => (none, scores)

/-- Spec-side scoring, following the spec's words: normalise the query to
lowercase and, for each agent, sum the non-overlapping case-insensitive
substring occurrence counts of each of its keywords. -/
def spec_scores (query : List Char) (table : List (String × List (List Char))) :
    List (String × Nat) :=
  table.map fun p =>
    (p.1, (p.2.map fun kw => pyCount (query.map pyLower) (kw.map pyLower)).sum)

/-- Spec-side decision, following the spec's words: the agent with the
strictly highest score wins; if the maximum score is zero, or two or more
agents share the maximum score, the result is unresolved (`none`). -/
def spec_decision (scores : List (String × Nat)) : Option String :=
  let best := ((scores.map Prod.snd).max?).getD 0
  if best = 0 then none
  else if 2 ≤ (scores.filter fun p => p.2 == best).length then none
  else (scores.find? fun p => p.2 == best).map Prod.fst

theorem find?_eq_head_filter {α : Type} (p : α → Bool) (l : List α) :
    l.find? p = (l.filter p).head? := by
  induction l with
  | nil => rfl
  | cons x xs ih =>
    simp only [List.find?_cons, List.filter_cons]
    cases hx : p x
    · exact ih
    · rfl

theorem decision_cases (s : List (String × Nat)) :
    (if ((s.map Prod.snd).max?).getD 0 = 0 then ((none : Option String), s)
     else
       match (s.filter fun p => p.2 == ((s.map Prod.snd).max?).getD 0).map Prod.fst with
       | [w] => (some w, s)
       | _ => (none, s)) = (spec_decision s, s) := by
  unfold spec_decision
  dsimp only
  by_cases hb : ((s.map Prod.snd).max?).getD 0 = 0
  · rw [if_pos hb, if_pos hb]
  · rw [if_neg hb, if_neg hb]
    rcases hf : s.filter fun p => p.2 == ((s.map Prod.snd).max?).getD 0 with - | ⟨x, tail⟩
    · rw [find?_eq_head_filter, hf]
      simp
    · rcases tail with - | ⟨y, rest⟩
      · rw [find?_eq_head_filter, hf]
        simp
      · rw [find?_eq_head_filter, hf]
        simp

theorem route_query_eq_spec (query : List Char)
    (keyword_map : List (String × List (List Char))) :
    route_query query keyword_map =
      (spec_decision (spec_scores query keyword_map),
        spec_scores query keyword_map) := by
  unfold route_query spec_scores
  dsimp only
  exact decision_cases _

/-! ## JSON-like documents (parsed manifest / registry values) -/

/-- Values of a parsed JSON document, as handled by the Python scripts. -/
inductive JValue where
  | str (s : String)
  | num (n : Int)
  | bool (b : Bool)
  | null
  | arr (xs : List JValue)
  | obj (kvs : List (String × JValue))

/-- A Python `dict` parsed from JSON: an insertion-ordered association list. -/
abbrev JObj := List (String × JValue)

/-- Dictionary lookup (`d[k]` / `k in d` both reduce to this). -/
def jlookup (kvs : JObj) (key : String) : Option JValue :=
  (kvs.find? fun p => p.1 == key).map Prod.snd

def isObjB : JValue → Bool
  | .obj _ => true
  | _ => false

def asObjD : JValue → JObj
  | .obj kvs => kvs
  | _ => []

/-- Total counterpart of `value.get(key)`, defined only on dictionaries. -/
def jgetOpt (v : JValue) (key : String) : Option JValue :=
  match v with
  | .obj kvs => jlookup kvs key
  | _ => none

/-- Python `value.get(key)`: raises `AttributeError` unless `value` is a dict. -/
def pyGet (v : JValue) (key : String) : Except String (Option JValue) :=
  match v with
  | .obj kvs => .ok (jlookup kvs key)
  | _ => .error "AttributeError: value has no attribute `get`"

/-- Python `value[key]`: `KeyError` when absent, `TypeError` on non-dicts. -/
def pyIndex (v : JValue) (key : String) : Except String JValue :=
  match v with
  | .obj kvs =>
    match jlookup kvs key with
    | some x => .ok x
    | none => .error ("KeyError: " ++ key)
  | _ => .error "TypeError: value is not subscriptable"

theorem pyGet_of_isObjB {v : JValue} (h : isObjB v = true) (key : String) :
    pyGet v key = .ok (jgetOpt v key) := by
  cases v <;> simp_all [isObjB, pyGet, jgetOpt]

/-- Embedding of `check_string_list`: a list whose items are all strings. -/
def check_string_list : JValue → Bool
  | .arr xs =>
    xs.all fun v =>
      match v with
      | .str _ => true
      | _ => false
  | _ => false

/-- The combined Python guard `not check_string_list(v) or not v`, negated:
`v` is a list of strings and non-empty (`None` and non-lists fail). -/
def is_nonempty_string_list : Option JValue → Bool
  | some (JValue.arr xs) =>
    (xs.all fun v =>
      match v with
      | .str _ => true
      | _ => false) && !xs.isEmpty
  | _ => false

/-- String payloads of a checked string list (default values unreachable). -/
def strListOf : Option JValue → List String
  | some (JValue.arr xs) =>
    xs.map fun v =>
      match v with
      | .str s => s
      | _ => ""
  | _ => []

/-- Python `str()` / f-string formatting of a scalar value. Nested lists and
dicts are rendered as an opaque placeholder: the validators only ever format
scalars (strings, numbers, booleans, `None`) into their error messages for
the manifests considered here. -/
def pyRepr : JValue → String
  | .str s => "'" ++ s ++ "'"
  | .num n => toString n
  | .bool true => "True"
  | .bool false => "False"
  | .null => "None"
  | .arr _ => "[...]"
  | .obj _ => "\x7b...\x7d"

/-- Python `str()` of a value: like `repr` but bare for strings. -/
def pyStr : JValue → String
  | .str s => s
  | v => pyRepr v

/-- Formatting of a `.get` result (`None` when the key was absent). -/
def pyStrOpt : Option JValue → String
  | none => "None"
  | some v => pyStr v

/-- Python `set(a) == set(b)` on key lists. -/
def sameSet (a b : List String) : Bool :=
  (a.all fun x => b.contains x) && (b.all fun x => a.contains x)

/-- Code-point lexicographic comparison (Python `<` on strings). -/
def charListLt : List Char → List Char → Bool
  | [], [] => false
  | [], _ :: _ => true
  | _ :: _, [] => false
  | a :: as, b :: bs =>
    if a.toNat < b.toNat then true
    else if b.toNat < a.toNat then false
    else charListLt as bs

def insertSorted (s : String) : List String → List String
  | [] => [s]
  | x :: xs => if charListLt x.data s.data then x :: insertSorted s xs else s :: x :: xs

/-- Python `sorted()` on a list of strings (code-point order). -/
def pySorted (l : List String) : List String := l.foldr insertSorted []

/-- Python `repr` of a list of plain strings, as f-strings format it. -/
def pyListRepr (xs : List String) : String :=
  "[" ++ String.intercalate ", " (xs.map fun s => "'" ++ s ++ "'") ++ "]"

def asObjOptD : Option JValue → JObj
  | some (JValue.obj kvs) => kvs
  | _ => []

def check_string_list_opt : Option JValue → Bool
  | some v => check_string_list v
  | none => false

/-! ## Structural & Referential Validator
(`toolkit_manifest_utils.py`, `validate_manifest_structure`) -/

def required_top : List String :=
  ["schema_version", "phase", "commands", "agents", "skills", "workflows",
    "installation"]

def top_level_errors (manifest : JObj) : List String :=
  required_top.flatMap fun key =>
    if (jlookup manifest key).isNone then
      ["manifest missing top-level key `" ++ key ++ "`"]
    else []

def section_shape_errors (name : String) (sec : JValue) : List String :=
  match sec with
  | .obj kvs =>
    if (match jlookup kvs "canonical" with
        | some (.obj _) => true
        | _ => false) then []
    else ["manifest missing `" ++ name ++ ".canonical` object"]
  | _ => ["manifest `" ++ name ++ "` must be an object"]

def skills_shape_errors (skills : JValue) : List String :=
  match skills with
  | .obj kvs =>
    (if (match jlookup kvs "canonical" with
         | some (.obj _) => true
         | _ => false) then []
     else ["manifest missing `skills.canonical` object"]) ++
    (if (match jlookup kvs "command_policy" with
         | some (.obj _) => true
         | _ => false) then []
     else ["manifest missing `skills.command_policy` object"])
  | _ => ["manifest `skills` must be an object"]

def installation_shape_errors (installation : JValue) : List String :=
  if (match jgetOpt installation "system_files" with
      | some (.obj _) => true
      | _ => false) then []
  else ["manifest missing `installation.system_files` object"]

/-- The error accumulation between the two early returns: schema-version
literal match and per-section shape. -/
def shape_errors (manifest : JObj) : List String :=
  (if (match jlookup manifest "schema_version" with
       | some (.str s) => s == "1.0"
       | _ => false) then []
   else
     ["unsupported schema_version `" ++ pyStrOpt (jlookup manifest "schema_version") ++
       "`; expected `1.0`"]) ++
  section_shape_errors "commands" ((jlookup manifest "commands").getD .null) ++
  section_shape_errors "agents" ((jlookup manifest "agents").getD .null) ++
  section_shape_errors "workflows" ((jlookup manifest "workflows").getD .null) ++
  skills_shape_errors ((jlookup manifest "skills").getD .null) ++
  installation_shape_errors ((jlookup manifest "installation").getD .null)

/-- Hashability of a value obtained from `.get` (absent = `None`): Python
lists and dicts are unhashable; every other value JSON can store (strings,
numbers, booleans, `None`) is hashable. -/
def isHashableOpt : Option JValue → Bool
  | some (.arr _) => false
  | some (.obj _) => false
  | _ => true

/-- Python membership of a value in a set of strings (`value in set_str`,
negated by `not in`): an unhashable value (list, dict) raises `TypeError`
at the hash lookup; a hashable non-string is simply not a member. -/
def pySetMember (v : Option JValue) (s : List String) : Except String Bool :=
  match v with
  | some (.arr _) => .error "TypeError: unhashable type: `list`"
  | some (.obj _) => .error "TypeError: unhashable type: `dict`"
  | some (.str x) => .ok (s.contains x)
  | _ => .ok false

/-- Errors contributed by one entry of the commands-canonical loop in the
no-raise case (`config` a dict, its owner value hashable). -/
def command_entry_errs (canonical_agents : List String) (p : String × JValue) :
    List String :=
  let owner := jgetOpt p.2 "owner"
  if (match owner with
      | some (.str s) => canonical_agents.contains s
      | _ => false) then []
  else
    ["command `" ++ p.1 ++ "` owner `" ++ pyStrOpt owner ++
      "` is not a canonical agent"]

/-- The commands-canonical loop; `config.get("owner")` raises on non-dict
records, and the set-membership test `owner not in canonical_agents` raises
`TypeError` when the owner value is unhashable (a list or a dict). -/
def check_command_owners (canonical_agents : List String) :
    JObj → Except String (List String)
  | [] => .ok []
  | (name, config) :: rest => do
    let owner ← pyGet config "owner"
    let ownerKnown ← pySetMember owner canonical_agents
    let tailErrs ← check_command_owners canonical_agents rest
    pure
      ((if ownerKnown then []
        else
          ["command `" ++ name ++ "` owner `" ++ pyStrOpt owner ++
            "` is not a canonical agent"]) ++ tailErrs)

/-- Errors contributed by one entry of the skills-canonical loop. -/
def skill_entry_errs (canonical_agents : List String) (p : String × JValue) :
    List String :=
  let owners := jgetOpt p.2 "owners"
  let triggers := jgetOpt p.2 "triggers"
  (if is_nonempty_string_list owners then
     (let unknown :=
        pySorted (((strListOf owners).dedup).filter fun o => !canonical_agents.contains o)
      if unknown.isEmpty then []
      else
        ["skill `" ++ p.1 ++ "` has unknown owners: " ++
          String.intercalate ", " unknown])
   else ["skill `" ++ p.1 ++ "` must define non-empty `owners` list"]) ++
  (if is_nonempty_string_list triggers then []
   else ["skill `" ++ p.1 ++ "` must define non-empty `triggers` list"])

/-- The skills-canonical loop; the two `config.get` calls raise on non-dicts. -/
def check_skill_entries (canonical_agents : List String) :
    JObj → Except String (List String)
  | [] => .ok []
  | (name, config) :: rest => do
    let owners ← pyGet config "owners"
    let triggers ← pyGet config "triggers"
    let tailErrs ← check_skill_entries canonical_agents rest
    pure
      (((if is_nonempty_string_list owners then
           (let unknown :=
              pySorted (((strListOf owners).dedup).filter fun o =>
                !canonical_agents.contains o)
            if unknown.isEmpty then []
            else
              ["skill `" ++ name ++ "` has unknown owners: " ++
                String.intercalate ", " unknown])
         else ["skill `" ++ name ++ "` must define non-empty `owners` list"]) ++
        (if is_nonempty_string_list triggers then []
         else ["skill `" ++ name ++ "` must define non-empty `triggers` list"])) ++
        tailErrs)

/-- The `command_policy` key-set comparison against canonical command names. -/
def policy_keys_errors (command_policy : JObj) (canonical_commands : List String) :
    List String :=
  if sameSet (command_policy.map Prod.fst) canonical_commands then []
  else
    ["`skills.command_policy` keys must match canonical commands: expected " ++
      pyListRepr (pySorted canonical_commands.dedup) ++ ", got " ++
      pyListRepr (pySorted (command_policy.map Prod.fst).dedup)]

/-- Errors contributed by one `command_policy` entry in the no-raise case
(`policy` a dict, its primary value hashable). -/
def policy_entry_errs (canonical_skills : List String) (p : String × JValue) :
    List String :=
  let primary := jgetOpt p.2 "primary"
  let optional := jgetOpt p.2 "optional"
  (if (match primary with
       | some (.str s) => canonical_skills.contains s
       | _ => false) then []
   else
     ["command policy `" ++ p.1 ++ "` references unknown primary skill `" ++
       pyStrOpt primary ++ "`"]) ++
  (if check_string_list_opt optional then
     (strListOf optional).flatMap fun skill_name =>
       (if canonical_skills.contains skill_name then []
        else
          ["command policy `" ++ p.1 ++ "` references unknown optional skill `" ++
            skill_name ++ "`"]) ++
       (if (match primary with
            | some (.str q) => q == skill_name
            | _ => false) then
          ["command policy `" ++ p.1 ++ "` optional includes primary skill `" ++
            pyStrOpt primary ++ "`"]
        else [])
   else ["command policy `" ++ p.1 ++ "` optional must be string list"])

/-- The `command_policy` loop; the two `policy.get` calls raise on non-dict
entries, and the test `primary not in canonical_skills` raises `TypeError`
when the primary value is unhashable (a list or a dict). -/
def check_policy_entries (canonical_skills : List String) :
    JObj → Except String (List String)
  | [] => .ok []
  | (name, policy) :: rest => do
    let primary ← pyGet policy "primary"
    let optional ← pyGet policy "optional"
    let primaryKnown ← pySetMember primary canonical_skills
    let tailErrs ← check_policy_entries canonical_skills rest
    pure
      (((if primaryKnown then []
         else
           ["command policy `" ++ name ++ "` references unknown primary skill `" ++
             pyStrOpt primary ++ "`"]) ++
        (if check_string_list_opt optional then
           (strListOf optional).flatMap fun skill_name =>
             (if canonical_skills.contains skill_name then []
              else
                ["command policy `" ++ name ++
                  "` references unknown optional skill `" ++ skill_name ++ "`"]) ++
             (if (match primary with
                  | some (.str q) => q == skill_name
                  | _ => false) then
                ["command policy `" ++ name ++ "` optional includes primary skill `" ++
                  pyStrOpt primary ++ "`"]
              else [])
         else ["command policy `" ++ name ++ "` optional must be string list"])) ++
        tailErrs)

/-- The `installation.system_files` platform loop. -/
def check_system_files (system_files : JObj) : List String :=
  ["claude", "opencode"].flatMap fun platform =>
    if is_nonempty_string_list (jlookup system_files platform) then []
    else
      ["installation.system_files." ++ platform ++
        " must be a non-empty string list"]

/-- The `commands["canonical"]` dict of a shape-checked manifest. -/
def m_commands_canon (manifest : JObj) : JObj :=
  asObjOptD (jgetOpt ((jlookup manifest "commands").getD .null) "canonical")

/-- The `agents["canonical"]` dict of a shape-checked manifest. -/
def m_agents_canon (manifest : JObj) : JObj :=
  asObjOptD (jgetOpt ((jlookup manifest "agents").getD .null) "canonical")

/-- The `skills["canonical"]` dict of a shape-checked manifest. -/
def m_skills_canon (manifest : JObj) : JObj :=
  asObjOptD (jgetOpt ((jlookup manifest "skills").getD .null) "canonical")

/-- The `skills["command_policy"]` dict of a shape-checked manifest. -/
def m_command_policy (manifest : JObj) : JObj :=
  asObjOptD (jgetOpt ((jlookup manifest "skills").getD .null) "command_policy")

/-- The `installation["system_files"]` dict of a shape-checked manifest. -/
def m_system_files (manifest : JObj) : JObj :=
  asObjOptD (jgetOpt ((jlookup manifest "installation").getD .null) "system_files")

/-- Embedding of `validate_manifest_structure`: top-level keys (early return),
schema version and section shape (early return), then the accumulated
cross-reference checks.  Python raising (`.get` on a non-dict entity record,
or a set-membership test on an unhashable owner/primary value) is the
`Except.error` case. -/
def validate_manifest_structure (manifest : JObj) : Except String (List String) :=
  let errs0 := top_level_errors manifest
  if errs0 ≠ [] then .ok errs0
  else
    let errs1 := shape_errors manifest
    if errs1 ≠ [] then .ok errs1
    else do
      let commandsCanon := m_commands_canon manifest
      let agentsCanon := m_agents_canon manifest
      let skillsCanon := m_skills_canon manifest
      let commandPolicy := m_command_policy manifest
      let systemFiles := m_system_files manifest
      let canonicalAgents := agentsCanon.map Prod.fst
      let canonicalCommands := commandsCanon.map Prod.fst
      let canonicalSkills := skillsCanon.map Prod.fst
      let e1 ← check_command_owners canonicalAgents commandsCanon
      let e2 ← check_skill_entries canonicalAgents skillsCanon
      let e3 := policy_keys_errors commandPolicy canonicalCommands
      let e4 ← check_policy_entries canonicalSkills commandPolicy
      let e5 := check_system_files systemFiles
      pure (e1 ++ e2 ++ e3 ++ e4 ++ e5)

/-! ## Alignment Checker trigger uniqueness
(`scripts/validate_skill_routing.py`, `validate_trigger_uniqueness`) -/

/-- Python truthiness of a value (`if not triggers`). -/
def pyTruthy : JValue → Bool
  | .arr xs => !xs.isEmpty
  | .str s => !s.isEmpty
  | .num n => n != 0
  | .bool b => b
  | .null => false
  | .obj kvs => !kvs.isEmpty

/-- Python iteration over a value: lists yield their items, strings yield
their characters, anything else raises `TypeError`. -/
def pyIterElems : JValue → Except String (List JValue)
  | .arr xs => .ok xs
  | .str s => .ok (s.data.map fun c => .str (String.singleton c))
  | _ => .error "TypeError: value is not iterable"

/-- Python `" ".join(trigger.lower().split())`: lowercase, split on runs of
whitespace discarding empties, rejoin with single spaces. -/
def normalizeTrigger (t : String) : String :=
  String.intercalate " "
    ((((t.data.map pyLower).splitOnP fun c => c.isWhitespace).filter
        fun w => !w.isEmpty).map List.asString)

/-- First-binding lookup in the `seen` association (Python dict lookup). -/
def slookup (seen : List (String × String)) (key : String) : Option String :=
  (seen.find? fun p => p.1 == key).map Prod.snd

/-- The inner loop of `validate_trigger_uniqueness` over one skill's
trigger list, threading `(errors, seen)`. -/
def trigger_scan (skill_name : String) :
    List JValue → List String → List (String × String) →
      Except String (List String × List (String × String))
  | [], errors, seen => .ok (errors, seen)
  | t :: rest, errors, seen => do
    let trigger ←
      (match t with
       | .str s => Except.ok s
       | _ => Except.error "AttributeError: value has no attribute lower")
    let normalized := normalizeTrigger trigger
    match slookup seen normalized with
    | some firstSkill =>
      trigger_scan skill_name rest
        (errors ++
          ["duplicate trigger `" ++ trigger ++ "` shared by `" ++ skill_name ++
            "` and `" ++ firstSkill ++ "`"])
        seen
    | none =>
      trigger_scan skill_name rest errors (seen ++ [(normalized, skill_name)])

/-- The outer loop of `validate_trigger_uniqueness` over the canonical
skills, threading `(errors, seen)`. -/
def skill_scan :
    JObj → List String → List (String × String) →
      Except String (List String × List (String × String))
  | [], errors, seen => .ok (errors, seen)
  | (skill_name, config) :: rest, errors, seen => do
    let triggersOpt ← pyGet config "triggers"
    let triggers := triggersOpt.getD (.arr [])
    if pyTruthy triggers then do
      let items ← pyIterElems triggers
      let st ← trigger_scan skill_name items errors seen
      skill_scan rest st.1 st.2
    else
      skill_scan rest
        (errors ++ ["canonical skill `" ++ skill_name ++ "` has no triggers"]) seen

/-- Embedding of `validate_trigger_uniqueness`: walk every canonical skill's
triggers, normalise each phrase, and report a duplicate against the first
skill that registered the normalised phrase. -/
def validate_trigger_uniqueness (skill_registry : JObj) :
    Except String (List String) := do
  let canonicalV ← pyIndex (.obj skill_registry) "canonical"
  let canonical ←
    (match canonicalV with
     | .obj kvs => Except.ok kvs
     | _ => Except.error "AttributeError: value has no attribute items")
  let st ← skill_scan canonical [] []
  pure st.1

/-! ## Artifact Renderer (`toolkit_manifest_utils.py`) -/

def INSTALL_BLOCK_BEGIN : List Char :=
  "# BEGIN GENERATED: TOOLKIT_PACKAGE_LISTS".data

def INSTALL_BLOCK_END : List Char :=
  "# END GENERATED: TOOLKIT_PACKAGE_LISTS".data

/-- `keys_in_order`: a dict's keys in insertion order. -/
def keys_in_order (data : JObj) : List String := data.map Prod.fst

def command_canonical_names (manifest : JObj) : Except String (List String) := do
  let commands ← pyIndex (.obj manifest) "commands"
  let canonical ← pyIndex commands "canonical"
  match canonical with
  | .obj kvs => pure (keys_in_order kvs)
  | _ => .error "AttributeError: value has no attribute keys"

def agent_canonical_names (manifest : JObj) : Except String (List String) := do
  let agents ← pyIndex (.obj manifest) "agents"
  let canonical ← pyIndex agents "canonical"
  match canonical with
  | .obj kvs => pure (keys_in_order kvs)
  | _ => .error "AttributeError: value has no attribute keys"

def skill_canonical_names (manifest : JObj) : Except String (List String) := do
  let skills ← pyIndex (.obj manifest) "skills"
  let canonical ← pyIndex skills "canonical"
  match canonical with
  | .obj kvs => pure (keys_in_order kvs)
  | _ => .error "AttributeError: value has no attribute keys"

def workflow_names (manifest : JObj) : Except String (List String) := do
  let workflows ← pyIndex (.obj manifest) "workflows"
  let canonical ← pyIndex workflows "canonical"
  match canonical with
  | .obj kvs => pure (keys_in_order kvs)
  | _ => .error "AttributeError: value has no attribute keys"

/-- The four package lists of `build_package_lists`. -/
structure PackageLists where
  PKG_SKILLS : List String
  PKG_AGENTS : List String
  PKG_WORKFLOWS : List String
  PKG_COMMANDS : List String

def build_package_lists (manifest : JObj) : Except String PackageLists := do
  let skill_packages ← skill_canonical_names manifest
  let agent_packages := (← agent_canonical_names manifest).map fun name => "crewai/" ++ name
  let workflow_packages ← workflow_names manifest
  let command_packages := (← command_canonical_names manifest).map fun name => "crew/" ++ name
  pure ⟨skill_packages, agent_packages, workflow_packages, command_packages⟩

/-- The line list of `render_bash_array` before joining: header `name=(`,
one four-space-indented double-quoted line per value, and `)`. -/
def bash_array_lines (name : String) (values : List String) : List (List Char) :=
  [(name ++ "=(").data] ++
    values.map (fun value => ("    \"" ++ value ++ "\"").data) ++
    [")".data]

/-- Embedding of `render_bash_array` (`"\n".join(lines)`). -/
def render_bash_array (name : String) (values : List String) : List Char :=
  List.intercalate ['\n'] (bash_array_lines name values)

/-- Embedding of `render_install_block`: begin marker, the four bash arrays
separated by blank lines, end marker, all newline-joined. -/
def render_install_block (manifest : JObj) : Except String (List Char) := do
  let package_lists ← build_package_lists manifest
  pure (List.intercalate ['\n']
    [INSTALL_BLOCK_BEGIN,
      render_bash_array "PKG_SKILLS" package_lists.PKG_SKILLS,
      [],
      render_bash_array "PKG_AGENTS" package_lists.PKG_AGENTS,
      [],
      render_bash_array "PKG_WORKFLOWS" package_lists.PKG_WORKFLOWS,
      [],
      render_bash_array "PKG_COMMANDS" package_lists.PKG_COMMANDS,
      INSTALL_BLOCK_END])

/-- Embedding of `replace_block`: find the begin marker, find the first end
marker from there, append a newline to the block unless it already ends with
one, and splice; a missing marker raises `ValueError`. -/
def replace_block (text begin_marker end_marker block : List Char) :
    Except String (List Char) :=
  match findFrom begin_marker text with
  | none => .error ("missing start marker: " ++ begin_marker.asString)
  | some start =>
    match findFrom end_marker (text.drop start) with
    | none => .error ("missing end marker: " ++ end_marker.asString)
    | some d =>
      let replacement := if block.getLast? = some '\n' then block else block ++ ['\n']
      .ok (text.take start ++ replacement ++ text.drop (start + d + end_marker.length))

/-- Embedding of `extract_block`: the slice from the begin marker through the
first end marker after it (markers included). -/
def extract_block (text begin_marker end_marker : List Char) :
    Except String (List Char) :=
  match findFrom begin_marker text with
  | none => .error ("missing start marker: " ++ begin_marker.asString)
  | some start =>
    match findFrom end_marker (text.drop start) with
    | none => .error ("missing end marker: " ++ end_marker.asString)
    | some d => .ok ((text.drop start).take (d + end_marker.length))

/-- Embedding of `apply_generated_install_block`. -/
def apply_generated_install_block (install_text : List Char) (manifest : JObj) :
    Except String (List Char) := do
  let block ← render_install_block manifest
  replace_block install_text INSTALL_BLOCK_BEGIN INSTALL_BLOCK_END block

/-! ## Runtime registry projection
(`toolkit_manifest_utils.py`, `build_runtime_registry`) -/

/-- Embedding of `build_runtime_registry`: dict comprehensions over the three
canonical sections (`config["owner"]` etc. raise on missing keys or non-dict
records), then the result document in its literal key order. -/
def build_runtime_registry (manifest : JObj) : Except String JValue := do
  let commandsSection ← pyIndex (.obj manifest) "commands"
  let commandsCanon ← pyIndex commandsSection "canonical"
  let command_canonical ← (asObjD commandsCanon).mapM fun p => do
    let owner ← pyIndex p.2 "owner"
    pure (p.1, JValue.obj [("owner", owner)])
  let agentsSection ← pyIndex (.obj manifest) "agents"
  let agentsCanon ← pyIndex agentsSection "canonical"
  let agent_canonical ← (asObjD agentsCanon).mapM fun p => do
    let description ← pyIndex p.2 "description"
    pure (p.1, JValue.obj [("description", description)])
  let skillsSection ← pyIndex (.obj manifest) "skills"
  let skillsCanon ← pyIndex skillsSection "canonical"
  let skill_canonical ← (asObjD skillsCanon).mapM fun p => do
    let owners ← pyIndex p.2 "owners"
    let triggers ← pyIndex p.2 "triggers"
    pure (p.1, JValue.obj [("owners", owners), ("triggers", triggers)])
  let schema_version ← pyIndex (.obj manifest) "schema_version"
  let phase ← pyIndex (.obj manifest) "phase"
  let command_policy ← pyIndex skillsSection "command_policy"
  pure (JValue.obj
    [("schema_version", schema_version),
      ("phase", phase),
      ("commands", .obj [("canonical", .obj command_canonical)]),
      ("agents", .obj [("canonical", .obj agent_canonical)]),
      ("skills", .obj
        [("canonical", .obj skill_canonical),
          ("command_policy", command_policy)])])

/-- The GeneratedRegistry as the spec describes it: a reduced projection of
the manifest with an owner-only view of commands, a description-only view of
agents, an owners+triggers view of skills, the `command_policy` copied
verbatim, `schema_version` and `phase` carried over, and every section in
the manifest's own insertion order. -/
def spec_registry (manifest : JObj) : JValue :=
  let commandsCanon :=
    asObjOptD (jgetOpt ((jlookup manifest "commands").getD .null) "canonical")
  let agentsCanon :=
    asObjOptD (jgetOpt ((jlookup manifest "agents").getD .null) "canonical")
  let skillsCanon :=
    asObjOptD (jgetOpt ((jlookup manifest "skills").getD .null) "canonical")
  JValue.obj
    [("schema_version", (jlookup manifest "schema_version").getD .null),
      ("phase", (jlookup manifest "phase").getD .null),
      ("commands", .obj
        [("canonical", .obj (commandsCanon.map fun p =>
          (p.1, JValue.obj [("owner", (jgetOpt p.2 "owner").getD .null)])))]),
      ("agents", .obj
        [("canonical", .obj (agentsCanon.map fun p =>
          (p.1, JValue.obj [("description", (jgetOpt p.2 "description").getD .null)])))]),
      ("skills", .obj
        [("canonical", .obj (skillsCanon.map fun p =>
          (p.1, JValue.obj
            [("owners", (jgetOpt p.2 "owners").getD .null),
              ("triggers", (jgetOpt p.2 "triggers").getD .null)]))),
          ("command_policy",
            (jgetOpt ((jlookup manifest "skills").getD .null) "command_policy").getD .null)])]


/-! ## Concrete manifests used by the theorems -/

/-- A small fully valid manifest: two commands owned by one agent, two
skills, one workflow, a complete command policy, both install platforms. -/
def M_ok : JObj :=
  [("schema_version", .str "1.0"),
    ("phase", .str "4"),
    ("commands", .obj [("canonical", .obj
      [("build-crew", .obj
        [("owner", .str "builder"),
          ("template", .str "templates/shared/commands/crew/build-crew.md")]),
        ("audit-crew", .obj
          [("owner", .str "builder"),
            ("template", .str "templates/shared/commands/crew/audit-crew.md")])])]),
    ("agents", .obj [("canonical", .obj
      [("builder", .obj
        [("description", .str "Builds crews"),
          ("template", .str "templates/shared/agents/crewai/builder.md")])])]),
    ("skills", .obj
      [("canonical", .obj
        [("core-build", .obj
          [("owners", .arr [.str "builder"]),
            ("triggers", .arr [.str "scaffold project"]),
            ("template", .str "templates/shared/skills/core-build/SKILL.md")]),
          ("flows", .obj
            [("owners", .arr [.str "builder"]),
              ("triggers", .arr [.str "design a flow"]),
              ("template", .str "templates/shared/skills/flows/SKILL.md")])]),
        ("command_policy", .obj
          [("build-crew", .obj
            [("primary", .str "core-build"), ("optional", .arr [.str "flows"])]),
            ("audit-crew", .obj
              [("primary", .str "flows"), ("optional", .arr [])])])]),
    ("workflows", .obj [("canonical", .obj
      [("new-project", .obj
        [("template", .str "templates/shared/workflows/new-project/SKILL.md")])])]),
    ("installation", .obj [("system_files", .obj
      [("claude", .arr [.str "templates/claude/CLAUDE.md"]),
        ("opencode", .arr [.str "templates/opencode/crewai-orchestrator.md"])])])]

/-- `M_ok` with the command `audit-crew` removed from `commands.canonical`
while `command_policy` still carries both keys. -/
def M_missing_command : JObj :=
  [("schema_version", .str "1.0"),
    ("phase", .str "4"),
    ("commands", .obj [("canonical", .obj
      [("build-crew", .obj
        [("owner", .str "builder"),
          ("template", .str "templates/shared/commands/crew/build-crew.md")])])]),
    ("agents", .obj [("canonical", .obj
      [("builder", .obj
        [("description", .str "Builds crews"),
          ("template", .str "templates/shared/agents/crewai/builder.md")])])]),
    ("skills", .obj
      [("canonical", .obj
        [("core-build", .obj
          [("owners", .arr [.str "builder"]),
            ("triggers", .arr [.str "scaffold project"]),
            ("template", .str "templates/shared/skills/core-build/SKILL.md")]),
          ("flows", .obj
            [("owners", .arr [.str "builder"]),
              ("triggers", .arr [.str "design a flow"]),
              ("template", .str "templates/shared/skills/flows/SKILL.md")])]),
        ("command_policy", .obj
          [("build-crew", .obj
            [("primary", .str "core-build"), ("optional", .arr [.str "flows"])]),
            ("audit-crew", .obj
              [("primary", .str "flows"), ("optional", .arr [])])])]),
    ("workflows", .obj [("canonical", .obj
      [("new-project", .obj
        [("template", .str "templates/shared/workflows/new-project/SKILL.md")])])]),
    ("installation", .obj [("system_files", .obj
      [("claude", .arr [.str "templates/claude/CLAUDE.md"]),
        ("opencode", .arr [.str "templates/opencode/crewai-orchestrator.md"])])])]

/-- A shape-valid manifest with three independent cross-reference
violations: a command owned by the non-existent agent `w`, a skill with an
empty trigger list, and an optional list repeating its policy's primary
skill. -/
def M_three_violations_owner (w : String) : JObj :=
  [("schema_version", .str "1.0"),
    ("phase", .str "4"),
    ("commands", .obj [("canonical", .obj
      [("deploy-crew", .obj
        [("owner", .str w),
          ("template", .str "templates/shared/commands/crew/deploy-crew.md")])])]),
    ("agents", .obj [("canonical", .obj
      [("builder", .obj
        [("description", .str "Builds crews"),
          ("template", .str "templates/shared/agents/crewai/builder.md")])])]),
    ("skills", .obj
      [("canonical", .obj
        [("core-build", .obj
          [("owners", .arr [.str "builder"]),
            ("triggers", .arr []),
            ("template", .str "templates/shared/skills/core-build/SKILL.md")])]),
        ("command_policy", .obj
          [("deploy-crew", .obj
            [("primary", .str "core-build"),
              ("optional", .arr [.str "core-build"])])])]),
    ("workflows", .obj [("canonical", .obj [])]),
    ("installation", .obj [("system_files", .obj
      [("claude", .arr [.str "templates/claude/CLAUDE.md"]),
        ("opencode", .arr [.str "templates/opencode/crewai-orchestrator.md"])])])]

/-- `M_ok` with the `flows` trigger replaced so that two distinct skills
carry triggers that normalise to the same phrase `scaffold project`. -/
def M_dup_trigger : JObj :=
  [("schema_version", .str "1.0"),
    ("phase", .str "4"),
    ("commands", .obj [("canonical", .obj
      [("build-crew", .obj
        [("owner", .str "builder"),
          ("template", .str "templates/shared/commands/crew/build-crew.md")]),
        ("audit-crew", .obj
          [("owner", .str "builder"),
            ("template", .str "templates/shared/commands/crew/audit-crew.md")])])]),
    ("agents", .obj [("canonical", .obj
      [("builder", .obj
        [("description", .str "Builds crews"),
          ("template", .str "templates/shared/agents/crewai/builder.md")])])]),
    ("skills", .obj
      [("canonical", .obj
        [("core-build", .obj
          [("owners", .arr [.str "builder"]),
            ("triggers", .arr [.str "scaffold project"]),
            ("template", .str "templates/shared/skills/core-build/SKILL.md")]),
          ("flows", .obj
            [("owners", .arr [.str "builder"]),
              ("triggers", .arr [.str "Scaffold  Project"]),
              ("template", .str "templates/shared/skills/flows/SKILL.md")])]),
        ("command_policy", .obj
          [("build-crew", .obj
            [("primary", .str "core-build"), ("optional", .arr [.str "flows"])]),
            ("audit-crew", .obj
              [("primary", .str "flows"), ("optional", .arr [])])])]),
    ("workflows", .obj [("canonical", .obj
      [("new-project", .obj
        [("template", .str "templates/shared/workflows/new-project/SKILL.md")])])]),
    ("installation", .obj [("system_files", .obj
      [("claude", .arr [.str "templates/claude/CLAUDE.md"]),
        ("opencode", .arr [.str "templates/opencode/crewai-orchestrator.md"])])])]

/-- `M_ok` with a non-dict record as the single canonical command: every
shape check passes, yet the owner loop calls `.get` on the integer `42`. -/
def M_nondict_record : JObj :=
  [("schema_version", .str "1.0"),
    ("phase", .str "4"),
    ("commands", .obj [("canonical", .obj [("build-crew", .num 42)])]),
    ("agents", .obj [("canonical", .obj
      [("builder", .obj
        [("description", .str "Builds crews"),
          ("template", .str "templates/shared/agents/crewai/builder.md")])])]),
    ("skills", .obj
      [("canonical", .obj
        [("core-build", .obj
          [("owners", .arr [.str "builder"]),
            ("triggers", .arr [.str "scaffold project"]),
            ("template", .str "templates/shared/skills/core-build/SKILL.md")])]),
        ("command_policy", .obj
          [("build-crew", .obj
            [("primary", .str "core-build"), ("optional", .arr [])])])]),
    ("workflows", .obj [("canonical", .obj [])]),
    ("installation", .obj [("system_files", .obj
      [("claude", .arr [.str "templates/claude/CLAUDE.md"]),
        ("opencode", .arr [.str "templates/opencode/crewai-orchestrator.md"])])])]

/-- `M_ok` with the `build-crew` owner replaced by the empty list: every
record and policy entry is still a dict, but the owner value is unhashable,
so the membership test `owner not in canonical_agents` raises `TypeError`. -/
def M_list_owner : JObj :=
  [("schema_version", .str "1.0"),
    ("phase", .str "4"),
    ("commands", .obj [("canonical", .obj
      [("build-crew", .obj
        [("owner", .arr []),
          ("template", .str "templates/shared/commands/crew/build-crew.md")]),
        ("audit-crew", .obj
          [("owner", .str "builder"),
            ("template", .str "templates/shared/commands/crew/audit-crew.md")])])]),
    ("agents", .obj [("canonical", .obj
      [("builder", .obj
        [("description", .str "Builds crews"),
          ("template", .str "templates/shared/agents/crewai/builder.md")])])]),
    ("skills", .obj
      [("canonical", .obj
        [("core-build", .obj
          [("owners", .arr [.str "builder"]),
            ("triggers", .arr [.str "scaffold project"]),
            ("template", .str "templates/shared/skills/core-build/SKILL.md")]),
          ("flows", .obj
            [("owners", .arr [.str "builder"]),
              ("triggers", .arr [.str "design a flow"]),
              ("template", .str "templates/shared/skills/flows/SKILL.md")])]),
        ("command_policy", .obj
          [("build-crew", .obj
            [("primary", .str "core-build"), ("optional", .arr [.str "flows"])]),
            ("audit-crew", .obj
              [("primary", .str "flows"), ("optional", .arr [])])])]),
    ("workflows", .obj [("canonical", .obj
      [("new-project", .obj
        [("template", .str "templates/shared/workflows/new-project/SKILL.md")])])]),
    ("installation", .obj [("system_files", .obj
      [("claude", .arr [.str "templates/claude/CLAUDE.md"]),
        ("opencode", .arr [.str "templates/opencode/crewai-orchestrator.md"])])])]

/-- An installer script containing the generated-block markers with a stale
body, followed by further script text. -/
def install_text0 : List Char :=
  ("#!/bin/bash\n# BEGIN GENERATED: TOOLKIT_PACKAGE_LISTS\nPKG_SKILLS=(\n)\n# END GENERATED: TOOLKIT_PACKAGE_LISTS\n\ncopy_files\n").data



/-! ## Characterisation of the validator loops -/

theorem except_bind_ok {α β : Type} (a : α) (f : α → Except String β) :
    (Except.ok a >>= f) = f a := rfl

theorem except_bind_err {α β : Type} (e : String) (f : α → Except String β) :
    ((Except.error e : Except String α) >>= f) = .error e := rfl

theorem except_pure_eq {α : Type} (a : α) :
    (pure a : Except String α) = .ok a := rfl

theorem check_command_owners_eq_ok (agents : List String) (l : JObj)
    (h : ∀ p ∈ l, isObjB p.2 = true ∧ isHashableOpt (jgetOpt p.2 "owner") = true) :
    check_command_owners agents l = .ok (l.flatMap (command_entry_errs agents)) := by
  induction l with
  | nil => rfl
  | cons hd tl ih =>
    obtain ⟨name, config⟩ := hd
    obtain ⟨hobj, hhash⟩ := h (name, config) (by simp)
    have ihy := ih fun p hp => h p (by simp [hp])
    cases config
    case obj kvs =>
      have hhash' : isHashableOpt (jlookup kvs "owner") = true := by
        simpa [jgetOpt] using hhash
      rcases hv : jlookup kvs "owner" with - | w
      · simp [check_command_owners, pyGet, except_bind_ok, except_pure_eq, ihy,
          command_entry_errs, jgetOpt, hv, pySetMember]
      · rw [hv] at hhash'
        cases w
        case arr xs => simp [isHashableOpt] at hhash'
        case obj kvs2 => simp [isHashableOpt] at hhash'
        all_goals
          simp [check_command_owners, pyGet, except_bind_ok, except_pure_eq, ihy,
            command_entry_errs, jgetOpt, hv, pySetMember]
    all_goals simp [isObjB] at hobj

theorem check_command_owners_ok_inv (agents : List String) (l : JObj) (r : List String)
    (h : check_command_owners agents l = .ok r) :
    ∀ p ∈ l, isObjB p.2 = true ∧ isHashableOpt (jgetOpt p.2 "owner") = true := by
  induction l generalizing r with
  | nil => simp
  | cons hd tl ih =>
    obtain ⟨name, config⟩ := hd
    intro p hp
    cases config
    case obj kvs =>
      simp only [check_command_owners, pyGet, except_bind_ok] at h
      rcases hm : pySetMember (jlookup kvs "owner") agents with e | b
      · rw [hm, except_bind_err] at h
        cases h
      · rw [hm, except_bind_ok] at h
        rcases hc : check_command_owners agents tl with e | errs
        · rw [hc, except_bind_err] at h
          cases h
        · rcases List.mem_cons.mp hp with rfl | hp'
          · refine ⟨by simp [isObjB], ?_⟩
            have hhash : isHashableOpt (jlookup kvs "owner") = true := by
              rcases hv : jlookup kvs "owner" with - | w
              · rfl
              · rw [hv] at hm
                cases w
                case arr xs => simp [pySetMember] at hm
                case obj kvs2 => simp [pySetMember] at hm
                all_goals rfl
            simpa [jgetOpt] using hhash
          · exact ih errs hc p hp'
    all_goals
      simp only [check_command_owners, pyGet, except_bind_err] at h
      cases h

theorem check_skill_entries_eq_ok (agents : List String) (l : JObj)
    (h : ∀ p ∈ l, isObjB p.2 = true) :
    check_skill_entries agents l = .ok (l.flatMap (skill_entry_errs agents)) := by
  induction l with
  | nil => rfl
  | cons hd tl ih =>
    obtain ⟨name, config⟩ := hd
    have hobj : isObjB config = true := h (name, config) (by simp)
    have ihy := ih fun p hp => h p (by simp [hp])
    cases config
    case obj kvs =>
      simp [check_skill_entries, pyGet, except_bind_ok, except_pure_eq, ihy,
        skill_entry_errs, jgetOpt]
    all_goals simp [isObjB] at hobj

theorem check_skill_entries_ok_inv (agents : List String) (l : JObj) (r : List String)
    (h : check_skill_entries agents l = .ok r) : ∀ p ∈ l, isObjB p.2 = true := by
  induction l generalizing r with
  | nil => simp
  | cons hd tl ih =>
    obtain ⟨name, config⟩ := hd
    intro p hp
    cases config
    case obj kvs =>
      simp only [check_skill_entries, pyGet, except_bind_ok] at h
      rcases hc : check_skill_entries agents tl with e | errs
      · rw [hc, except_bind_err] at h
        cases h
      · rcases List.mem_cons.mp hp with rfl | hp'
        · simp [isObjB]
        · exact ih errs hc p hp'
    all_goals
      simp only [check_skill_entries, pyGet, except_bind_err] at h
      cases h

theorem check_policy_entries_eq_ok (skills : List String) (l : JObj)
    (h : ∀ p ∈ l, isObjB p.2 = true ∧ isHashableOpt (jgetOpt p.2 "primary") = true) :
    check_policy_entries skills l = .ok (l.flatMap (policy_entry_errs skills)) := by
  induction l with
  | nil => rfl
  | cons hd tl ih =>
    obtain ⟨name, config⟩ := hd
    obtain ⟨hobj, hhash⟩ := h (name, config) (by simp)
    have ihy := ih fun p hp => h p (by simp [hp])
    cases config
    case obj kvs =>
      have hhash' : isHashableOpt (jlookup kvs "primary") = true := by
        simpa [jgetOpt] using hhash
      rcases hv : jlookup kvs "primary" with - | w
      · simp [check_policy_entries, pyGet, except_bind_ok, except_pure_eq, ihy,
          policy_entry_errs, jgetOpt, hv, pySetMember]
      · rw [hv] at hhash'
        cases w
        case arr xs => simp [isHashableOpt] at hhash'
        case obj kvs2 => simp [isHashableOpt] at hhash'
        all_goals
          simp [check_policy_entries, pyGet, except_bind_ok, except_pure_eq, ihy,
            policy_entry_errs, jgetOpt, hv, pySetMember]
    all_goals simp [isObjB] at hobj

theorem check_policy_entries_ok_inv (skills : List String) (l : JObj) (r : List String)
    (h : check_policy_entries skills l = .ok r) :
    ∀ p ∈ l, isObjB p.2 = true ∧ isHashableOpt (jgetOpt p.2 "primary") = true := by
  induction l generalizing r with
  | nil => simp
  | cons hd tl ih =>
    obtain ⟨name, config⟩ := hd
    intro p hp
    cases config
    case obj kvs =>
      simp only [check_policy_entries, pyGet, except_bind_ok] at h
      rcases hm : pySetMember (jlookup kvs "primary") skills with e | b
      · rw [hm, except_bind_err] at h
        cases h
      · rw [hm, except_bind_ok] at h
        rcases hc : check_policy_entries skills tl with e | errs
        · rw [hc, except_bind_err] at h
          cases h
        · rcases List.mem_cons.mp hp with rfl | hp'
          · refine ⟨by simp [isObjB], ?_⟩
            have hhash : isHashableOpt (jlookup kvs "primary") = true := by
              rcases hv : jlookup kvs "primary" with - | w
              · rfl
              · rw [hv] at hm
                cases w
                case arr xs => simp [pySetMember] at hm
                case obj kvs2 => simp [pySetMember] at hm
                all_goals rfl
            simpa [jgetOpt] using hhash
          · exact ih errs hc p hp'
    all_goals
      simp only [check_policy_entries, pyGet, except_bind_err] at h
      cases h

/-- Well-formedness needed to rule out Python raising inside the
cross-reference stage: every canonical command record, canonical skill
record, and command-policy entry is itself a dictionary (no
`AttributeError` from `.get`), and the owner values of the command records
and the primary values of the policy entries are hashable — not lists or
dicts (no `TypeError` from the set-membership tests). -/
def records_dicts_and_hashable (manifest : JObj) : Prop :=
  (∀ p ∈ m_commands_canon manifest,
    isObjB p.2 = true ∧ isHashableOpt (jgetOpt p.2 "owner") = true) ∧
  (∀ p ∈ m_skills_canon manifest, isObjB p.2 = true) ∧
  (∀ p ∈ m_command_policy manifest,
    isObjB p.2 = true ∧ isHashableOpt (jgetOpt p.2 "primary") = true)

instance (manifest : JObj) : Decidable (records_dicts_and_hashable manifest) := by
  unfold records_dicts_and_hashable
  infer_instance

/-- On any manifest whose entity records and policy entries are themselves
dictionaries and whose owner/primary values are hashable, the validator
runs to completion and returns a list. -/
theorem validate_manifest_structure_total (manifest : JObj)
    (h : records_dicts_and_hashable manifest) :
    ∃ errs, validate_manifest_structure manifest = .ok errs := by
  unfold validate_manifest_structure
  dsimp only
  by_cases h0 : top_level_errors manifest ≠ []
  · exact ⟨_, by rw [if_pos h0]⟩
  · rw [if_neg h0]
    by_cases h1 : shape_errors manifest ≠ []
    · exact ⟨_, by rw [if_pos h1]⟩
    · rw [if_neg h1]
      obtain ⟨hc, hs, hp⟩ := h
      rw [check_command_owners_eq_ok _ _ hc, except_bind_ok,
        check_skill_entries_eq_ok _ _ hs, except_bind_ok,
        check_policy_entries_eq_ok _ _ hp, except_bind_ok]
      exact ⟨_, rfl⟩

/-! ## Registry projection lemmas -/

theorem mapM_ok_of_forall {α β : Type} {l : List α} {f : α → Except String β}
    {g : α → β} (h : ∀ a ∈ l, f a = .ok (g a)) : l.mapM f = .ok (l.map g) := by
  induction l with
  | nil => rfl
  | cons x xs ih =>
    rw [List.mapM_cons, h x (by simp), except_bind_ok,
      ih fun a ha => h a (by simp [ha]), except_bind_ok]
    rfl

theorem build_runtime_registry_eq_spec (manifest cs ag sk cc ac sc : JObj)
    (sv ph cp : JValue)
    (h1 : jlookup manifest "commands" = some (.obj cs))
    (h2 : jlookup cs "canonical" = some (.obj cc))
    (h3 : jlookup manifest "agents" = some (.obj ag))
    (h4 : jlookup ag "canonical" = some (.obj ac))
    (h5 : jlookup manifest "skills" = some (.obj sk))
    (h6 : jlookup sk "canonical" = some (.obj sc))
    (h7 : jlookup manifest "schema_version" = some sv)
    (h8 : jlookup manifest "phase" = some ph)
    (h9 : jlookup sk "command_policy" = some cp)
    (hcc : ∀ p ∈ cc, (isObjB p.2 && (jgetOpt p.2 "owner").isSome) = true)
    (hac : ∀ p ∈ ac, (isObjB p.2 && (jgetOpt p.2 "description").isSome) = true)
    (hsc : ∀ p ∈ sc,
      (isObjB p.2 && (jgetOpt p.2 "owners").isSome &&
        (jgetOpt p.2 "triggers").isSome) = true) :
    build_runtime_registry manifest = .ok (spec_registry manifest) := by
  have hmc : cc.mapM (fun p => do
      let owner ← pyIndex p.2 "owner"
      pure (p.1, JValue.obj [("owner", owner)])) =
      .ok (cc.map fun p =>
        (p.1, JValue.obj [("owner", (jgetOpt p.2 "owner").getD .null)])) := by
    apply mapM_ok_of_forall
    intro p hp
    have hw := hcc p hp
    rw [Bool.and_eq_true] at hw
    obtain ⟨hobj, hkey⟩ := hw
    cases hv : p.2
    case obj kvs =>
      rw [hv] at hkey
      simp only [jgetOpt] at hkey
      obtain ⟨o, ho⟩ := Option.isSome_iff_exists.mp hkey
      simp [pyIndex, ho, jgetOpt, except_bind_ok, except_pure_eq]
    all_goals
      rw [hv] at hobj
      simp [isObjB] at hobj
  have hma : ac.mapM (fun p => do
      let description ← pyIndex p.2 "description"
      pure (p.1, JValue.obj [("description", description)])) =
      .ok (ac.map fun p =>
        (p.1, JValue.obj [("description", (jgetOpt p.2 "description").getD .null)])) := by
    apply mapM_ok_of_forall
    intro p hp
    have hw := hac p hp
    rw [Bool.and_eq_true] at hw
    obtain ⟨hobj, hkey⟩ := hw
    cases hv : p.2
    case obj kvs =>
      rw [hv] at hkey
      simp only [jgetOpt] at hkey
      obtain ⟨o, ho⟩ := Option.isSome_iff_exists.mp hkey
      simp [pyIndex, ho, jgetOpt, except_bind_ok, except_pure_eq]
    all_goals
      rw [hv] at hobj
      simp [isObjB] at hobj
  have hms : sc.mapM (fun p => do
      let owners ← pyIndex p.2 "owners"
      let triggers ← pyIndex p.2 "triggers"
      pure (p.1, JValue.obj [("owners", owners), ("triggers", triggers)])) =
      .ok (sc.map fun p =>
        (p.1, JValue.obj
          [("owners", (jgetOpt p.2 "owners").getD .null),
            ("triggers", (jgetOpt p.2 "triggers").getD .null)])) := by
    apply mapM_ok_of_forall
    intro p hp
    have hw := hsc p hp
    rw [Bool.and_eq_true, Bool.and_eq_true] at hw
    obtain ⟨⟨hobj, hkey1⟩, hkey2⟩ := hw
    cases hv : p.2
    case obj kvs =>
      rw [hv] at hkey1 hkey2
      simp only [jgetOpt] at hkey1 hkey2
      obtain ⟨o1, ho1⟩ := Option.isSome_iff_exists.mp hkey1
      obtain ⟨o2, ho2⟩ := Option.isSome_iff_exists.mp hkey2
      simp [pyIndex, ho1, ho2, jgetOpt, except_bind_ok, except_pure_eq]
    all_goals
      rw [hv] at hobj
      simp [isObjB] at hobj
  have hp1 : pyIndex (.obj manifest) "commands" = .ok (.obj cs) := by
    simp [pyIndex, h1]
  have hp2 : pyIndex (.obj cs) "canonical" = .ok (.obj cc) := by
    simp [pyIndex, h2]
  have hp3 : pyIndex (.obj manifest) "agents" = .ok (.obj ag) := by
    simp [pyIndex, h3]
  have hp4 : pyIndex (.obj ag) "canonical" = .ok (.obj ac) := by
    simp [pyIndex, h4]
  have hp5 : pyIndex (.obj manifest) "skills" = .ok (.obj sk) := by
    simp [pyIndex, h5]
  have hp6 : pyIndex (.obj sk) "canonical" = .ok (.obj sc) := by
    simp [pyIndex, h6]
  have hp7 : pyIndex (.obj manifest) "schema_version" = .ok sv := by
    simp [pyIndex, h7]
  have hp8 : pyIndex (.obj manifest) "phase" = .ok ph := by
    simp [pyIndex, h8]
  have hp9 : pyIndex (.obj sk) "command_policy" = .ok cp := by
    simp [pyIndex, h9]
  unfold build_runtime_registry
  rw [hp1, except_bind_ok, hp2, except_bind_ok]
  dsimp only [asObjD]
  rw [hmc, except_bind_ok, hp3, except_bind_ok, hp4, except_bind_ok]
  dsimp only [asObjD]
  rw [hma, except_bind_ok, hp5, except_bind_ok, hp6, except_bind_ok]
  dsimp only [asObjD]
  rw [hms, except_bind_ok, hp7, except_bind_ok, hp8, except_bind_ok,
    hp9, except_bind_ok]
  unfold spec_registry
  simp only [h1, h2, h3, h4, h5, h6, h7, h8, h9, asObjOptD, jgetOpt,
    Option.getD, except_pure_eq]

theorem trigger_uniqueness_two_skills (s1 s2 t1 t2 : String) (h12 : s1 ≠ s2)
    (hnorm : normalizeTrigger t1 = normalizeTrigger t2) :
    validate_trigger_uniqueness
      [("canonical", .obj
        [(s1, .obj [("triggers", .arr [.str t1])]),
          (s2, .obj [("triggers", .arr [.str t2])])])] =
      .ok ["duplicate trigger `" ++ t2 ++ "` shared by `" ++ s2 ++ "` and `" ++
        s1 ++ "`"] := by
  unfold validate_trigger_uniqueness
  simp [pyIndex, jlookup, skill_scan, pyGet, pyTruthy, pyIterElems, trigger_scan,
    slookup, except_bind_ok, except_pure_eq, hnorm]

/-! ## Command-policy entry lemmas -/

theorem strListOf_map_str (xs : List String) :
    strListOf (some (.arr (xs.map JValue.str))) = xs := by
  induction xs with
  | nil => rfl
  | cons x tl ih => simp [strListOf] at ih ⊢; exact ih

theorem check_string_list_map_str (xs : List String) :
    check_string_list_opt (some (.arr (xs.map JValue.str))) = true := by
  induction xs with
  | nil => rfl
  | cons x tl ih => simp_all [check_string_list_opt, check_string_list]

theorem unknown_primary_msg_ne_includes_msg (name s q : String) :
    "command policy `" ++ name ++ "` references unknown primary skill `" ++ s ++ "`" ≠
      "command policy `" ++ name ++ "` optional includes primary skill `" ++ q ++ "`" := by
  intro h
  have hd := congrArg String.data h
  simp only [String.data_append, List.append_assoc] at hd
  have hd2 := List.append_cancel_left (List.append_cancel_left hd)
  have hd3 := congrArg (List.take 3) hd2
  rw [List.take_append_of_le_length (by decide),
    List.take_append_of_le_length (by decide)] at hd3
  exact absurd hd3 (by decide)

theorem policy_entry_optional_includes_primary (canonical_skills : List String)
    (name : String) (policy : JObj) (xs : List String) (p : String)
    (hprim : jlookup policy "primary" = some (.str p))
    (hopt : jlookup policy "optional" = some (.arr (xs.map JValue.str))) :
    (p ∈ xs →
      ("command policy `" ++ name ++ "` optional includes primary skill `" ++
        p ++ "`") ∈ policy_entry_errs canonical_skills (name, .obj policy)) ∧
    ((p ∉ xs ∧ ∀ s ∈ xs, s ∈ canonical_skills) →
      ∀ q, ("command policy `" ++ name ++ "` optional includes primary skill `" ++
        q ++ "`") ∉ policy_entry_errs canonical_skills (name, .obj policy)) := by
  unfold policy_entry_errs
  dsimp only
  rw [show jgetOpt (.obj policy) "primary" = some (.str p) from hprim ▸ rfl,
    show jgetOpt (.obj policy) "optional" = some (.arr (xs.map JValue.str)) from
      hopt ▸ rfl]
  rw [check_string_list_map_str, strListOf_map_str]
  simp only [if_true, pyStrOpt, pyStr]
  constructor
  · intro hp
    refine List.mem_append.mpr (Or.inr ?_)
    refine List.mem_flatMap.mpr ⟨p, hp, ?_⟩
    simp
  · rintro ⟨hnot, hcanon⟩ q hq
    rcases List.mem_append.mp hq with hl | hr
    · by_cases hpc : canonical_skills.contains p
      · rw [if_pos (by simpa using hpc)] at hl
        cases hl
      · rw [if_neg (by simpa using hpc)] at hl
        rcases List.mem_singleton.mp hl with h
        exact unknown_primary_msg_ne_includes_msg name p q h.symm
    · obtain ⟨s, hs, hmem⟩ := List.mem_flatMap.mp hr
      rcases List.mem_append.mp hmem with h1 | h2
      · rw [if_pos (by simpa using hcanon s hs)] at h1
        cases h1
      · by_cases hps : p = s
        · exact hnot (hps ▸ hs)
        · rw [if_neg (by simp [hps])] at h2
          cases h2

/-! ## Install-block geometry -/

theorem intercalate_cons₂ (s a b : List Char) (l : List (List Char)) :
    List.intercalate s (a :: b :: l) = a ++ s ++ List.intercalate s (b :: l) := by
  simp [List.intercalate, List.intersperse]

theorem intercalate_singleton (s a : List Char) :
    List.intercalate s [a] = a := by
  simp [List.intercalate]

theorem intercalate_append_parts (s : List Char) (xs ys : List (List Char))
    (hx : xs ≠ []) (hy : ys ≠ []) :
    List.intercalate s (xs ++ ys) =
      List.intercalate s xs ++ s ++ List.intercalate s ys := by
  induction xs with
  | nil => exact absurd rfl hx
  | cons a tl ih =>
    cases tl with
    | nil =>
      cases ys with
      | nil => exact absurd rfl hy
      | cons y ytl =>
        rw [List.singleton_append, intercalate_cons₂, intercalate_singleton]
    | cons b tl2 =>
      rw [List.cons_append, List.cons_append, intercalate_cons₂,
        ← List.cons_append, ih (by simp), intercalate_cons₂]
      simp [List.append_assoc]

/-- `pat` occurs nowhere in `s`. -/
def marker_free (pat s : List Char) : Prop :=
  ∀ i, ¬ (s.drop i).take pat.length = pat

theorem marker_free_of_findFrom_none {pat s : List Char}
    (h : findFrom pat s = none) : marker_free pat s :=
  (findFrom_eq_none_iff pat s).mp h

theorem marker_free_nil {pat : List Char} (hpat : pat ≠ []) :
    marker_free pat [] := by
  intro i h
  simp at h
  exact hpat h

/-- A pattern free of newlines never occurs in a newline-join of
individually pattern-free segments. -/
theorem marker_free_intercalate {pat : List Char} (hpat : pat ≠ [])
    (hnl : '\n' ∉ pat) :
    ∀ (segs : List (List Char)), (∀ seg ∈ segs, marker_free pat seg) →
      marker_free pat (List.intercalate ['\n'] segs)
  | [], _ => by
    simpa [List.intercalate] using marker_free_nil hpat
  | [seg], h => by
    simpa [intercalate_singleton] using h seg (by simp)
  | seg :: seg2 :: rest, h => by
    rw [intercalate_cons₂]
    intro i hocc
    rw [List.append_assoc, List.singleton_append] at hocc
    rcases occurs_split_newline hpat hnl hocc with ⟨-, hin⟩ | ⟨-, hin⟩
    · exact h seg (by simp) _ hin
    · exact marker_free_intercalate hpat hnl (seg2 :: rest)
        (fun s hs => h s (by simp [hs])) _ hin

/-- Prefixing with characters that cannot start the pattern preserves
pattern-freeness. -/
theorem marker_free_prepend {pat pre v : List Char} {c : Char}
    (hhead : pat.head? = some c) (hpre : c ∉ pre)
    (hv : marker_free pat v) : marker_free pat (pre ++ v) := by
  intro i hocc
  have hpat : pat ≠ [] := by
    intro h
    rw [h] at hhead
    cases hhead
  by_cases hi : i < pre.length
  · have hj : 0 < pat.length := List.length_pos.mpr hpat
    have hget := occurs_getElem hocc hj
    rw [Nat.add_zero, List.getElem?_append_left hi] at hget
    have hhd : pat[0]? = some c := by
      cases pat with
      | nil => cases hhead
      | cons c0 tl => simpa using hhead
    rw [hhd] at hget
    obtain ⟨hlt, hc⟩ := List.getElem?_eq_some.mp hget
    exact hpre (hc ▸ List.getElem_mem hlt)
  · have := @occurs_append_right pat pre v i (by omega)
    rw [this] at hocc
    exact hv _ hocc

/-- A quote-free pattern that cannot start inside `pre` and does not occur
in `v` does not occur in `pre ++ v ++ ['"']` either. -/
theorem marker_free_quoted {pat pre v : List Char} {c : Char}
    (hhead : pat.head? = some c) (hpre : c ∉ pre) (hq : '"' ∉ pat)
    (hv : marker_free pat v) : marker_free pat (pre ++ v ++ ['"']) := by
  have hpat : pat ≠ [] := by
    intro h
    rw [h] at hhead
    cases hhead
  rw [List.append_assoc]
  refine marker_free_prepend hhead hpre ?_
  intro i hocc
  by_cases h1 : i + pat.length ≤ v.length
  · exact hv _ ((occurs_append_left_iff h1).mp hocc)
  · by_cases h2 : i ≤ v.length
    · exact hq (char_mem_of_occurs_cross (b := []) hocc h2 (by omega))
    · have := @occurs_append_right pat v ['"'] i (by omega)
      rw [this] at hocc
      have hlen := occurs_length_le hpat hocc
      have : 0 < pat.length := List.length_pos.mpr hpat
      simp at hlen
      omega

theorem quoted_line_data (v : String) :
    ("    \"" ++ v ++ "\"").data = "    \"".data ++ v.data ++ ['"'] := by
  simp [String.data_append]

/-- The segments of the install block other than the terminal end marker. -/
def install_block_core_segments (S A W C : List String) : List (List Char) :=
  [INSTALL_BLOCK_BEGIN] ++ bash_array_lines "PKG_SKILLS" S ++ [[]] ++
    bash_array_lines "PKG_AGENTS" A ++ [[]] ++
    bash_array_lines "PKG_WORKFLOWS" W ++ [[]] ++
    bash_array_lines "PKG_COMMANDS" C

/-- All newline-joined segments of the install block, terminal marker last. -/
def install_block_segments (S A W C : List String) : List (List Char) :=
  install_block_core_segments S A W C ++ [INSTALL_BLOCK_END]

theorem render_install_block_names (manifest : JObj) (S A W C : List String)
    (hS : skill_canonical_names manifest = .ok S)
    (hA : agent_canonical_names manifest = .ok A)
    (hW : workflow_names manifest = .ok W)
    (hC : command_canonical_names manifest = .ok C) :
    render_install_block manifest =
      .ok (List.intercalate ['\n']
        (install_block_segments S (A.map fun n => "crewai/" ++ n) W
          (C.map fun n => "crew/" ++ n))) := by
  have hno : ∀ (nm : String) (vs : List String), bash_array_lines nm vs ≠ [] := by
    intro nm vs
    simp [bash_array_lines]
  unfold render_install_block build_package_lists
  rw [hS, except_bind_ok, hA, except_bind_ok, hW, except_bind_ok, hC,
    except_bind_ok, except_pure_eq, except_bind_ok, except_pure_eq]
  congr 1
  unfold install_block_segments install_block_core_segments
  simp only [List.append_assoc]
  rw [intercalate_append_parts _ _ _ (by simp) (by simp [bash_array_lines]),
    intercalate_append_parts _ _ _ (by simp [bash_array_lines]) (by simp),
    intercalate_append_parts _ _ _ (by simp) (by simp [bash_array_lines]),
    intercalate_append_parts _ _ _ (by simp [bash_array_lines]) (by simp),
    intercalate_append_parts _ _ _ (by simp) (by simp [bash_array_lines]),
    intercalate_append_parts _ _ _ (by simp [bash_array_lines]) (by simp),
    intercalate_append_parts _ _ _ (by simp) (by simp [bash_array_lines]),
    intercalate_append_parts _ _ _ (by simp [bash_array_lines]) (by simp)]
  simp [intercalate_cons₂, intercalate_singleton, render_bash_array,
    List.append_assoc]

theorem segments_intercalate_eq_core (S A W C : List String) :
    List.intercalate ['\n'] (install_block_segments S A W C) =
      List.intercalate ['\n'] (install_block_core_segments S A W C) ++
        '\n' :: INSTALL_BLOCK_END := by
  unfold install_block_segments
  rw [intercalate_append_parts _ _ _ (by simp [install_block_core_segments])
    (by simp), intercalate_singleton]
  simp

theorem core_takes_begin (S A W C : List String) :
    (List.intercalate ['\n'] (install_block_core_segments S A W C)).take
      INSTALL_BLOCK_BEGIN.length = INSTALL_BLOCK_BEGIN := by
  unfold install_block_core_segments
  simp only [List.append_assoc]
  rw [intercalate_append_parts _ _ _ (by simp) (by simp [bash_array_lines]),
    intercalate_singleton, List.append_assoc,
    List.take_append_of_le_length (by simp)]
  simp

theorem core_marker_free (S A W C : List String)
    (hS : ∀ n ∈ S, marker_free INSTALL_BLOCK_END n.data)
    (hA : ∀ n ∈ A, marker_free INSTALL_BLOCK_END n.data)
    (hW : ∀ n ∈ W, marker_free INSTALL_BLOCK_END n.data)
    (hC : ∀ n ∈ C, marker_free INSTALL_BLOCK_END n.data) :
    marker_free INSTALL_BLOCK_END
      (List.intercalate ['\n'] (install_block_core_segments S A W C)) := by
  apply marker_free_intercalate (by decide) (by decide)
  intro seg hseg
  have harr : ∀ (nm : String) (vs : List String),
      marker_free INSTALL_BLOCK_END (nm ++ "=(").data →
      (∀ v ∈ vs, marker_free INSTALL_BLOCK_END v.data) →
      ∀ sg ∈ bash_array_lines nm vs, marker_free INSTALL_BLOCK_END sg := by
    intro nm vs hnm hvs sg hsg
    simp only [bash_array_lines, List.mem_append, List.mem_map,
      List.mem_singleton] at hsg
    rcases hsg with (rfl | ⟨v, hv, rfl⟩) | rfl
    · exact hnm
    · rw [quoted_line_data]
      exact marker_free_quoted (c := '#') (by decide) (by decide) (by decide)
        (hvs v hv)
    · exact marker_free_of_findFrom_none (by decide)
  simp only [install_block_core_segments, List.append_assoc, List.mem_append,
    List.mem_singleton] at hseg
  rcases hseg with rfl | hseg1 | rfl | hseg2 | rfl | hseg3 | rfl | hseg4
  · exact marker_free_of_findFrom_none (by decide)
  · exact harr _ _ (marker_free_of_findFrom_none (by decide)) hS seg hseg1
  · exact marker_free_nil (by decide)
  · exact harr _ _ (marker_free_of_findFrom_none (by decide)) hA seg hseg2
  · exact marker_free_nil (by decide)
  · exact harr _ _ (marker_free_of_findFrom_none (by decide)) hW seg hseg3
  · exact marker_free_nil (by decide)
  · exact harr _ _ (marker_free_of_findFrom_none (by decide)) hC seg hseg4

theorem apply_extract_roundtrip (manifest : JObj) (text : List Char)
    (S A W C : List String)
    (hS : skill_canonical_names manifest = .ok S)
    (hA : agent_canonical_names manifest = .ok A)
    (hW : workflow_names manifest = .ok W)
    (hC : command_canonical_names manifest = .ok C)
    (hfree : ∀ n ∈ S ++ A ++ W ++ C,
      findFrom INSTALL_BLOCK_BEGIN n.data = none ∧
        findFrom INSTALL_BLOCK_END n.data = none)
    (start d : Nat)
    (hstart : findFrom INSTALL_BLOCK_BEGIN text = some start)
    (hend : findFrom INSTALL_BLOCK_END (text.drop start) = some d) :
    ∃ out block,
      apply_generated_install_block text manifest = .ok out ∧
      render_install_block manifest = .ok block ∧
      extract_block out INSTALL_BLOCK_BEGIN INSTALL_BLOCK_END = .ok block := by
  have hrender := render_install_block_names manifest S A W C hS hA hW hC
  set A' := A.map (fun n => "crewai/" ++ n) with hA'
  set C' := C.map (fun n => "crew/" ++ n) with hC'
  set block := List.intercalate ['\n'] (install_block_segments S A' W C') with hbdef
  set core :=
    List.intercalate ['\n'] (install_block_core_segments S A' W C') with hcdef
  have hblockeq : block = core ++ '\n' :: INSTALL_BLOCK_END :=
    segments_intercalate_eq_core S A' W C'
  have hfreecore : marker_free INSTALL_BLOCK_END core := by
    apply core_marker_free
    · intro n hn
      exact marker_free_of_findFrom_none (hfree n (by simp [hn])).2
    · intro n hn
      rw [hA'] at hn
      obtain ⟨m, hm, rfl⟩ := List.mem_map.mp hn
      rw [String.data_append]
      exact marker_free_prepend (c := '#') (by decide) (by decide)
        (marker_free_of_findFrom_none (hfree m (by simp [hm])).2)
    · intro n hn
      exact marker_free_of_findFrom_none (hfree n (by simp [hn])).2
    · intro n hn
      rw [hC'] at hn
      obtain ⟨m, hm, rfl⟩ := List.mem_map.mp hn
      rw [String.data_append]
      exact marker_free_prepend (c := '#') (by decide) (by decide)
        (marker_free_of_findFrom_none (hfree m (by simp [hm])).2)
  have hlenblock : block.length = core.length + 1 + INSTALL_BLOCK_END.length := by
    rw [hblockeq]
    simp
    omega
  have hcoretake : core.take INSTALL_BLOCK_BEGIN.length = INSTALL_BLOCK_BEGIN :=
    core_takes_begin S A' W C'
  have hlencore : INSTALL_BLOCK_BEGIN.length ≤ core.length := by
    have := congrArg List.length hcoretake
    simp only [List.length_take] at this
    omega
  have hblocktake : block.take INSTALL_BLOCK_BEGIN.length = INSTALL_BLOCK_BEGIN := by
    rw [hblockeq, List.take_append_of_le_length hlencore, hcoretake]
  have hlast : block.getLast? = some 'S' := by
    rw [hblockeq, List.getLast?_append_of_ne_nil _ (by simp)]
    decide
  have hstart_le : start + INSTALL_BLOCK_BEGIN.length ≤ text.length :=
    findFrom_le_length _ _ _ (by decide) hstart
  obtain ⟨hoccB, hminB⟩ := (findFrom_eq_some_iff _ _ _).mp hstart
  set suf := text.drop (start + d + INSTALL_BLOCK_END.length) with hsuf
  set pre := text.take start with hpre
  have hprelen : pre.length = start := by
    rw [hpre, List.length_take]
    omega
  set out := pre ++ (block ++ '\n' :: suf) with hout
  have happly : apply_generated_install_block text manifest = .ok out := by
    unfold apply_generated_install_block
    rw [hrender, except_bind_ok]
    unfold replace_block
    rw [hstart]
    dsimp only
    rw [hend]
    dsimp only
    rw [hlast, if_neg (by decide)]
    rw [hout]
    simp [List.append_assoc]
  have hdrop_out : out.drop start = block ++ '\n' :: suf := by
    rw [hout, ← hprelen, List.drop_left]
  have htake_out : out.take (start + INSTALL_BLOCK_BEGIN.length) =
      pre ++ INSTALL_BLOCK_BEGIN := by
    rw [hout, List.take_append_eq_append_take, hprelen]
    have h1 : start + INSTALL_BLOCK_BEGIN.length - start =
        INSTALL_BLOCK_BEGIN.length := by omega
    have h2 : (pre.take (start + INSTALL_BLOCK_BEGIN.length)) = pre := by
      apply List.take_of_length_le
      omega
    rw [h1, h2, List.take_append_of_le_length (by omega), hblocktake]
  have htake_text : text.take (start + INSTALL_BLOCK_BEGIN.length) =
      pre ++ INSTALL_BLOCK_BEGIN := by
    rw [List.take_add, ← hpre, hoccB]
  have hx1 : findFrom INSTALL_BLOCK_BEGIN out = some start := by
    rw [findFrom_eq_some_iff]
    constructor
    · rw [hdrop_out, List.take_append_of_le_length (by omega), hblocktake]
    · intro j hj
      have hagree : out.take (start + INSTALL_BLOCK_BEGIN.length) =
          text.take (start + INSTALL_BLOCK_BEGIN.length) := by
        rw [htake_out, htake_text]
      rw [occurs_of_take_agree hagree (by omega)]
      exact hminB j hj
  have hdrop2 : out.drop start =
      core ++ '\n' :: (INSTALL_BLOCK_END ++ '\n' :: suf) := by
    rw [hdrop_out, hblockeq]
    simp
  have hx2 : findFrom INSTALL_BLOCK_END (out.drop start) =
      some (core.length + 1) := by
    rw [findFrom_eq_some_iff, hdrop2]
    constructor
    · have hd : (core ++ '\n' :: (INSTALL_BLOCK_END ++ '\n' :: suf)).drop
          (core.length + 1) = INSTALL_BLOCK_END ++ '\n' :: suf := by
        rw [List.drop_append_eq_append_drop]
        have h1 : core.drop (core.length + 1) = [] :=
          List.drop_eq_nil_of_le (by omega)
        rw [h1]
        have h2 : core.length + 1 - core.length = 1 := by omega
        rw [h2]
        simp
      rw [hd, List.take_append_of_le_length (by simp)]
      simp
    · intro j hj hocc
      by_cases hcase : j + INSTALL_BLOCK_END.length ≤ core.length
      · exact hfreecore j ((occurs_append_left_iff hcase).mp hocc)
      · have : '\n' ∈ INSTALL_BLOCK_END :=
          char_mem_of_occurs_cross hocc (by omega) (by omega)
        revert this
        decide
  refine ⟨out, block, happly, hrender, ?_⟩
  unfold extract_block
  rw [hx1]
  dsimp only
  rw [hx2]
  dsimp only
  congr 1
  rw [hdrop_out]
  have hlen : core.length + 1 + INSTALL_BLOCK_END.length = block.length := by
    omega
  rw [hlen, List.take_left]

/-! ## Removing a canonical command (C7 scenario) -/

/-- The manifest with command `c` deleted from `commands.canonical` and
everything else untouched. -/
def remove_canonical_command (manifest : JObj) (c : String) : JObj :=
  manifest.map fun p =>
    if p.1 = "commands" then
      (p.1, JValue.obj ((asObjD p.2).map fun q =>
        if q.1 = "canonical" then
          (q.1, JValue.obj ((asObjD q.2).filter fun r => r.1 ≠ c))
        else q))
    else p

theorem jlookup_map_update (l : JObj) (key : String) (f : JValue → JValue)
    (k : String) :
    jlookup (l.map fun p => if p.1 = key then (p.1, f p.2) else p) k =
      if k = key then (jlookup l k).map f else jlookup l k := by
  induction l with
  | nil => by_cases hk : k = key <;> simp [jlookup, hk]
  | cons hd tl ih =>
    obtain ⟨a, v⟩ := hd
    by_cases ha : a = key
    · subst ha
      by_cases hk : k = a
      · subst hk
        simp [jlookup, List.find?]
      · simp only [List.map_cons, if_pos rfl]
        simp only [jlookup, List.find?] at ih ⊢
        have hne : (a == k) = false := by
          simp [BEq.beq]
          exact fun h => hk h.symm
        rw [hne]
        simpa [jlookup, hne] using ih
    · simp only [List.map_cons, if_neg ha]
      by_cases hk : k = a
      · subst hk
        simp [jlookup, List.find?, ha]
      · simp only [jlookup, List.find?] at ih ⊢
        have hne : (a == k) = false := by
          simp [BEq.beq]
          exact fun h => hk h.symm
        rw [hne]
        simpa [jlookup, hne] using ih

theorem jlookup_remove_other (manifest : JObj) (c : String) (k : String)
    (hk : k ≠ "commands") :
    jlookup (remove_canonical_command manifest c) k = jlookup manifest k := by
  unfold remove_canonical_command
  exact (jlookup_map_update manifest "commands"
    (fun v => JValue.obj ((asObjD v).map fun q =>
      if q.1 = "canonical" then
        (q.1, JValue.obj ((asObjD q.2).filter fun r => r.1 ≠ c))
      else q)) k).trans (if_neg hk)

theorem jlookup_remove_commands (manifest : JObj) (c : String) :
    jlookup (remove_canonical_command manifest c) "commands" =
      (jlookup manifest "commands").map fun v =>
        JValue.obj ((asObjD v).map fun q =>
          if q.1 = "canonical" then
            (q.1, JValue.obj ((asObjD q.2).filter fun r => r.1 ≠ c))
          else q) := by
  unfold remove_canonical_command
  exact (jlookup_map_update manifest "commands"
    (fun v => JValue.obj ((asObjD v).map fun q =>
      if q.1 = "canonical" then
        (q.1, JValue.obj ((asObjD q.2).filter fun r => r.1 ≠ c))
      else q)) "commands").trans (if_pos rfl)

theorem keys_filter_ne (l : JObj) (c : String) :
    ((l.filter fun r => r.1 ≠ c).map Prod.fst) =
      (l.map Prod.fst).filter fun k => k ≠ c := by
  induction l with
  | nil => rfl
  | cons hd tl ih =>
    have ih' : List.map Prod.fst (tl.filter fun r => !decide (r.1 = c)) =
        (tl.map Prod.fst).filter fun k => !decide (k = c) := by
      simpa using ih
    by_cases hc : hd.1 = c <;> simp [List.filter_cons, hc, ih']

theorem sameSet_true_iff (a b : List String) :
    sameSet a b = true ↔ (∀ x ∈ a, x ∈ b) ∧ ∀ x ∈ b, x ∈ a := by
  simp [sameSet, List.all_eq_true]

theorem top_level_errors_eq_nil_iff (manifest : JObj) :
    top_level_errors manifest = [] ↔
      ∀ k ∈ required_top, (jlookup manifest k).isSome := by
  unfold top_level_errors
  rw [List.flatMap_eq_nil_iff]
  constructor
  · intro h k hk
    have := h k hk
    by_cases hn : (jlookup manifest k).isNone
    · rw [if_pos hn] at this
      cases this
    · simpa [Option.isSome_iff_ne_none, Option.isNone_iff_eq_none] using hn
  · intro h k hk
    rw [if_neg ?_]
    have := h k hk
    simp only [Option.isNone_iff_eq_none]
    intro heq
    rw [heq] at this
    cases this

theorem section_shape_errors_eq_nil (name : String) (v : JValue) :
    section_shape_errors name v = [] ↔
      ∃ kvs cc, v = .obj kvs ∧ jlookup kvs "canonical" = some (.obj cc) := by
  cases v <;> simp only [section_shape_errors]
  case obj kvs =>
    constructor
    · intro h
      rcases hl : jlookup kvs "canonical" with - | w
      · rw [hl] at h
        simp at h
      · cases w <;> rw [hl] at h <;> simp at h
        case obj cc => exact ⟨kvs, cc, rfl, hl⟩
    · rintro ⟨kvs', cc, heq, hl⟩
      cases heq
      rw [hl]
      simp
  all_goals simp

theorem validate_ok_inversion (m : JObj)
    (hvalid : validate_manifest_structure m = .ok []) :
    top_level_errors m = [] ∧ shape_errors m = [] ∧
    ∃ e1 e2 e4,
      check_command_owners ((m_agents_canon m).map Prod.fst) (m_commands_canon m) =
        .ok e1 ∧
      check_skill_entries ((m_agents_canon m).map Prod.fst) (m_skills_canon m) =
        .ok e2 ∧
      check_policy_entries ((m_skills_canon m).map Prod.fst) (m_command_policy m) =
        .ok e4 ∧
      e1 = [] ∧ e2 = [] ∧
      policy_keys_errors (m_command_policy m) ((m_commands_canon m).map Prod.fst) =
        [] ∧
      e4 = [] ∧ check_system_files (m_system_files m) = [] := by
  unfold validate_manifest_structure at hvalid
  dsimp only at hvalid
  have h0 : top_level_errors m = [] := by
    by_contra hne
    rw [if_pos hne] at hvalid
    exact hne (by injection hvalid)
  rw [if_neg (by simp [h0])] at hvalid
  have h1 : shape_errors m = [] := by
    by_contra hne
    rw [if_pos hne] at hvalid
    exact hne (by injection hvalid)
  rw [if_neg (by simp [h1])] at hvalid
  refine ⟨h0, h1, ?_⟩
  rcases hE1 : check_command_owners ((m_agents_canon m).map Prod.fst)
      (m_commands_canon m) with e | e1
  · rw [hE1, except_bind_err] at hvalid
    cases hvalid
  rw [hE1, except_bind_ok] at hvalid
  rcases hE2 : check_skill_entries ((m_agents_canon m).map Prod.fst)
      (m_skills_canon m) with e | e2
  · rw [hE2, except_bind_err] at hvalid
    cases hvalid
  rw [hE2, except_bind_ok] at hvalid
  rcases hE4 : check_policy_entries ((m_skills_canon m).map Prod.fst)
      (m_command_policy m) with e | e4
  · rw [hE4, except_bind_err] at hvalid
    cases hvalid
  rw [hE4, except_bind_ok] at hvalid
  have happ : e1 ++ e2 ++
      policy_keys_errors (m_command_policy m) ((m_commands_canon m).map Prod.fst) ++
      e4 ++ check_system_files (m_system_files m) = [] := by
    injection hvalid
  simp only [List.append_eq_nil] at happ
  exact ⟨e1, e2, e4, rfl, rfl, rfl, happ.1.1.1.1, happ.1.1.1.2, happ.1.1.2,
    happ.1.2, happ.2⟩

theorem shape_errors_parts (m : JObj) (h : shape_errors m = []) :
    (match jlookup m "schema_version" with
      | some (.str s) => s == "1.0"
      | _ => false) = true ∧
    section_shape_errors "commands" ((jlookup m "commands").getD .null) = [] ∧
    section_shape_errors "agents" ((jlookup m "agents").getD .null) = [] ∧
    section_shape_errors "workflows" ((jlookup m "workflows").getD .null) = [] ∧
    skills_shape_errors ((jlookup m "skills").getD .null) = [] ∧
    installation_shape_errors ((jlookup m "installation").getD .null) = [] := by
  unfold shape_errors at h
  simp only [List.append_eq_nil] at h
  obtain ⟨⟨⟨⟨⟨hs, hc⟩, ha⟩, hw⟩, hsk⟩, hi⟩ := h
  refine ⟨?_, hc, ha, hw, hsk, hi⟩
  by_cases hcond : (match jlookup m "schema_version" with
      | some (.str s) => s == "1.0"
      | _ => false) = true
  · exact hcond
  · exfalso
    rw [if_neg hcond] at hs
    cases hs

theorem commands_section_of_shape (m : JObj)
    (hc : section_shape_errors "commands" ((jlookup m "commands").getD .null) = []) :
    ∃ cs cc, jlookup m "commands" = some (.obj cs) ∧
      jlookup cs "canonical" = some (.obj cc) := by
  obtain ⟨kvs, cc, heq, hcl⟩ := (section_shape_errors_eq_nil _ _).mp hc
  rcases hl : jlookup m "commands" with - | v
  · rw [hl] at heq
    simp at heq
  · rw [hl] at heq
    simp only [Option.getD] at heq
    subst heq
    exact ⟨kvs, cc, rfl, hcl⟩

theorem remove_command_policy_mismatch (m : JObj) (c : String)
    (hvalid : validate_manifest_structure m = .ok [])
    (hc : c ∈ (m_commands_canon m).map Prod.fst) :
    validate_manifest_structure (remove_canonical_command m c) =
      .ok (policy_keys_errors (m_command_policy m)
        ((m_commands_canon (remove_canonical_command m c)).map Prod.fst)) ∧
    (policy_keys_errors (m_command_policy m)
      ((m_commands_canon (remove_canonical_command m c)).map Prod.fst)).length
      = 1 := by
  obtain ⟨h0, h1, e1, e2, e4, hE1, hE2, hE4, he1, he2, he3, he4, he5⟩ :=
    validate_ok_inversion m hvalid
  obtain ⟨hsch, hcsec, hasec, hwsec, hssec, hisec⟩ := shape_errors_parts m h1
  obtain ⟨cs, cc0, hcl, hccl⟩ := commands_section_of_shape m hcsec
  have hmc : m_commands_canon m = cc0 := by
    unfold m_commands_canon
    rw [hcl]
    simp [jgetOpt, asObjOptD, hccl]
  have hl_ag : jlookup (remove_canonical_command m c) "agents" =
      jlookup m "agents" := jlookup_remove_other m c _ (by decide)
  have hl_sk : jlookup (remove_canonical_command m c) "skills" =
      jlookup m "skills" := jlookup_remove_other m c _ (by decide)
  have hl_wf : jlookup (remove_canonical_command m c) "workflows" =
      jlookup m "workflows" := jlookup_remove_other m c _ (by decide)
  have hl_in : jlookup (remove_canonical_command m c) "installation" =
      jlookup m "installation" := jlookup_remove_other m c _ (by decide)
  have hl_sv : jlookup (remove_canonical_command m c) "schema_version" =
      jlookup m "schema_version" := jlookup_remove_other m c _ (by decide)
  have hl_ph : jlookup (remove_canonical_command m c) "phase" =
      jlookup m "phase" := jlookup_remove_other m c _ (by decide)
  have hcanon' : jlookup (cs.map fun q =>
      if q.1 = "canonical" then
        (q.1, JValue.obj ((asObjD q.2).filter fun r => r.1 ≠ c))
      else q) "canonical" =
      some (.obj (cc0.filter fun r => r.1 ≠ c)) := by
    have := (jlookup_map_update cs "canonical"
      (fun v => JValue.obj ((asObjD v).filter fun r => r.1 ≠ c)) "canonical").trans
      (if_pos rfl)
    rw [this, hccl]
    rfl
  have hl_cmd : jlookup (remove_canonical_command m c) "commands" =
      some (.obj (cs.map fun q =>
        if q.1 = "canonical" then
          (q.1, JValue.obj ((asObjD q.2).filter fun r => r.1 ≠ c))
        else q)) := by
    rw [jlookup_remove_commands, hcl]
    rfl
  have hmc' : m_commands_canon (remove_canonical_command m c) =
      cc0.filter fun r => r.1 ≠ c := by
    unfold m_commands_canon
    rw [hl_cmd]
    simp only [Option.getD, jgetOpt, hcanon', asObjOptD]
  have hma' : m_agents_canon (remove_canonical_command m c) = m_agents_canon m := by
    unfold m_agents_canon
    rw [hl_ag]
  have hms' : m_skills_canon (remove_canonical_command m c) = m_skills_canon m := by
    unfold m_skills_canon
    rw [hl_sk]
  have hmp' : m_command_policy (remove_canonical_command m c) =
      m_command_policy m := by
    unfold m_command_policy
    rw [hl_sk]
  have hmsf' : m_system_files (remove_canonical_command m c) =
      m_system_files m := by
    unfold m_system_files
    rw [hl_in]
  have htopm := (top_level_errors_eq_nil_iff m).mp h0
  have htop' : top_level_errors (remove_canonical_command m c) = [] := by
    rw [top_level_errors_eq_nil_iff]
    intro k hk
    simp only [required_top, List.mem_cons, List.mem_singleton,
      List.not_mem_nil, or_false] at hk
    rcases hk with rfl | rfl | rfl | rfl | rfl | rfl | rfl
    · rw [hl_sv]
      exact htopm _ (by simp [required_top])
    · rw [hl_ph]
      exact htopm _ (by simp [required_top])
    · rw [hl_cmd]
      rfl
    · rw [hl_ag]
      exact htopm _ (by simp [required_top])
    · rw [hl_sk]
      exact htopm _ (by simp [required_top])
    · rw [hl_wf]
      exact htopm _ (by simp [required_top])
    · rw [hl_in]
      exact htopm _ (by simp [required_top])
  have hcmdsec' : section_shape_errors "commands"
      ((jlookup (remove_canonical_command m c) "commands").getD .null) = [] := by
    rw [hl_cmd]
    exact (section_shape_errors_eq_nil _ _).mpr ⟨_, _, rfl, hcanon'⟩
  have hshape' : shape_errors (remove_canonical_command m c) = [] := by
    unfold shape_errors
    rw [hl_sv, hl_ag, hl_wf, hl_sk, hl_in, hcmdsec']
    rw [if_pos hsch, hasec, hwsec, hssec, hisec]
    simp
  have hobjs : ∀ p ∈ cc0, isObjB p.2 = true ∧
      isHashableOpt (jgetOpt p.2 "owner") = true := by
    have := hE1
    rw [hmc] at this
    exact check_command_owners_ok_inv _ _ _ this
  have he1flat : cc0.flatMap (command_entry_errs ((m_agents_canon m).map Prod.fst))
      = [] := by
    have heq := check_command_owners_eq_ok ((m_agents_canon m).map Prod.fst) cc0 hobjs
    have := hE1
    rw [hmc, heq] at this
    rw [← he1]
    injection this
  have hflt : check_command_owners ((m_agents_canon m).map Prod.fst)
      (cc0.filter fun r => r.1 ≠ c) = .ok [] := by
    rw [check_command_owners_eq_ok _ _
      (fun p hp => hobjs p (List.mem_of_mem_filter hp))]
    congr 1
    rw [List.flatMap_eq_nil_iff]
    exact fun p hp =>
      (List.flatMap_eq_nil_iff.mp he1flat) p (List.mem_of_mem_filter hp)
  constructor
  · unfold validate_manifest_structure
    dsimp only
    rw [if_neg (by simp [htop']), if_neg (by simp [hshape'])]
    rw [hma', hms', hmp', hmsf', hmc']
    rw [hflt, except_bind_ok, hE2, except_bind_ok, hE4, except_bind_ok]
    rw [he2, he4, he5]
    simp only [List.nil_append, List.append_nil]
    rfl
  · have hpkold := he3
    have hsame : sameSet ((m_command_policy m).map Prod.fst)
        ((m_commands_canon m).map Prod.fst) = true := by
      by_cases hcond : sameSet ((m_command_policy m).map Prod.fst)
          ((m_commands_canon m).map Prod.fst) = true
      · exact hcond
      · exfalso
        unfold policy_keys_errors at hpkold
        rw [if_neg hcond] at hpkold
        cases hpkold
    have hcin : c ∈ (m_command_policy m).map Prod.fst :=
      ((sameSet_true_iff _ _).mp hsame).2 c hc
    have hnotin : c ∉ (m_commands_canon (remove_canonical_command m c)).map
        Prod.fst := by
      rw [hmc', keys_filter_ne]
      intro hmem
      have := List.of_mem_filter hmem
      simp at this
    have hsame' : sameSet ((m_command_policy m).map Prod.fst)
        ((m_commands_canon (remove_canonical_command m c)).map Prod.fst) = false := by
      by_cases hcond : sameSet ((m_command_policy m).map Prod.fst)
          ((m_commands_canon (remove_canonical_command m c)).map Prod.fst) = true
      · exfalso
        exact hnotin (((sameSet_true_iff _ _).mp hcond).1 c hcin)
      · simpa using hcond
    unfold policy_keys_errors
    rw [if_neg (by simp [hsame'])]
    rfl

/-! ## Claim theorems -/

/-- Claim C1: the specification asserts that `replace_block` is idempotent
for every marker-bearing text and rendered block. The code violates this:
because the spliced replacement carries a trailing newline that the next
application's end-marker search cuts off, each application inserts one extra
newline after the end marker. At the concrete installer text `install_text0`
and the rendered block of `M_ok`, applying the operation twice differs from
applying it once. -/
theorem c1_replace_block_double_apply_differs :
    (do
      let once ← apply_generated_install_block install_text0 M_ok
      apply_generated_install_block once M_ok) ≠
      apply_generated_install_block install_text0 M_ok := by
  decide

/-- Claim C2: `route_query` lowercases the query, scores each agent by the
sum of non-overlapping case-insensitive keyword occurrence counts, and
resolves to the agent with the strictly highest score, returning `none` when
the maximum is zero or shared — exactly the spec-side
`spec_decision`/`spec_scores`; and on the documented example the scores are
builder 1 / auditor 2 with winner auditor. -/
theorem c2_route_query_matches_spec_and_example :
    (∀ (query : List Char) (keyword_map : List (String × List (List Char))),
      route_query query keyword_map =
        (spec_decision (spec_scores query keyword_map),
          spec_scores query keyword_map)) ∧
    route_query "please audit and review this build".toList
      [("builder", ["build".toList, "scaffold".toList]),
        ("auditor", ["audit".toList, "review".toList])] =
      (some "auditor", [("builder", 1), ("auditor", 2)]) :=
  ⟨route_query_eq_spec, by decide⟩

theorem owner_msg_ne_triggers_msg (w : String) :
    "command `deploy-crew` owner `" ++ w ++ "` is not a canonical agent" ≠
      "skill `core-build` must define non-empty `triggers` list" := by
  intro h
  have hd := congrArg String.data h
  simp only [String.data_append, List.append_assoc] at hd
  have h3 := congrArg (List.take 1) hd
  rw [List.take_append_of_le_length (by decide)] at h3
  exact absurd h3 (by decide)

theorem owner_msg_ne_policy_msg (w : String) :
    "command `deploy-crew` owner `" ++ w ++ "` is not a canonical agent" ≠
      "command policy `deploy-crew` optional includes primary skill `core-build`" := by
  intro h
  have hd := congrArg String.data h
  simp only [String.data_append, List.append_assoc] at hd
  have h3 := congrArg (List.take 9) hd
  rw [List.take_append_of_le_length (by decide)] at h3
  exact absurd h3 (by decide)

/-- Claim C3: on any shape-valid manifest with three independent
cross-reference violations — a single command whose owner `w` is not a
canonical agent, a skill with an empty trigger list, and an optional list
repeating the primary — `validate_manifest_structure` accumulates all three
messages instead of stopping at the first, the first and only referential
error naming the command `deploy-crew` and the unknown owner `w`, and the
three messages are pairwise distinct. -/
theorem c3_validator_accumulates_independent_errors (w : String)
    (hw : w ≠ "builder") :
    validate_manifest_structure (M_three_violations_owner w) = .ok
      ["command `deploy-crew` owner `" ++ w ++ "` is not a canonical agent",
        "skill `core-build` must define non-empty `triggers` list",
        "command policy `deploy-crew` optional includes primary skill `core-build`"] ∧
    List.Pairwise (fun a b => a ≠ b)
      ["command `deploy-crew` owner `" ++ w ++ "` is not a canonical agent",
        "skill `core-build` must define non-empty `triggers` list",
        "command policy `deploy-crew` optional includes primary skill `core-build`"] := by
  constructor
  · unfold validate_manifest_structure
    dsimp only
    rw [if_neg (by
      rw [show top_level_errors (M_three_violations_owner w) = [] from rfl]
      simp)]
    rw [if_neg (by
      rw [show shape_errors (M_three_violations_owner w) = [] from rfl]
      simp)]
    have hE1 : check_command_owners
        ((m_agents_canon (M_three_violations_owner w)).map Prod.fst)
        (m_commands_canon (M_three_violations_owner w)) =
        .ok ["command `deploy-crew` owner `" ++ w ++
          "` is not a canonical agent"] := by
      show check_command_owners ["builder"]
        [("deploy-crew", JValue.obj
          [("owner", JValue.str w),
            ("template",
              JValue.str "templates/shared/commands/crew/deploy-crew.md")])] = _
      have hcont : (["builder"].contains w) = false := by
        simp [hw]
      simp [check_command_owners, pyGet, pySetMember, jlookup, except_bind_ok,
        except_pure_eq, hcont, pyStrOpt, pyStr, hw]
    have hE2 : check_skill_entries
        ((m_agents_canon (M_three_violations_owner w)).map Prod.fst)
        (m_skills_canon (M_three_violations_owner w)) =
        .ok ["skill `core-build` must define non-empty `triggers` list"] := rfl
    have hE4 : check_policy_entries
        ((m_skills_canon (M_three_violations_owner w)).map Prod.fst)
        (m_command_policy (M_three_violations_owner w)) =
        .ok ["command policy `deploy-crew` optional includes primary skill `core-build`"] := rfl
    have hE3 : policy_keys_errors (m_command_policy (M_three_violations_owner w))
        ((m_commands_canon (M_three_violations_owner w)).map Prod.fst) = [] := rfl
    have hE5 : check_system_files (m_system_files (M_three_violations_owner w)) =
        [] := rfl
    rw [hE1, except_bind_ok, hE2, except_bind_ok, hE3, hE4, except_bind_ok, hE5]
    rfl
  · simp only [List.pairwise_cons, List.mem_cons, List.mem_singleton]
    refine ⟨?_, ?_, ?_⟩
    · intro b hb
      rcases hb with rfl | rfl | hb
      · exact owner_msg_ne_triggers_msg w
      · exact owner_msg_ne_policy_msg w
      · cases hb
    · intro b hb
      rcases hb with rfl | hb
      · decide
      · cases hb
    · simp

theorem c3_validator_accumulates_independent_errors_witness :
    validate_manifest_structure (M_three_violations_owner "ghost") = .ok
      ["command `deploy-crew` owner `ghost` is not a canonical agent",
        "skill `core-build` must define non-empty `triggers` list",
        "command policy `deploy-crew` optional includes primary skill `core-build`"] := by
  have h := c3_validator_accumulates_independent_errors "ghost" (by decide)
  exact h.1.trans (by decide)

/-- Claim C4, counterexample: `M_dup_trigger` passes all shape checks and
contains two skills (`core-build`, `flows`) whose triggers normalise to the
same phrase `scaffold project`, yet `validate_manifest_structure` returns no
error at all — invariant 7 is not among its checks. -/
theorem c4_counterexample_validator_silent_on_duplicate_trigger :
    normalizeTrigger "scaffold project" = normalizeTrigger "Scaffold  Project" ∧
    validate_manifest_structure M_dup_trigger = .ok [] := by
  decide

/-- Claim C4, amended: trigger uniqueness (invariant 7) is enforced not by
the Structural & Referential Validator but by the Alignment Checker's
`validate_trigger_uniqueness`, which does report the duplicate trigger for
the very manifest that `validate_manifest_structure` accepts. -/
theorem c4_duplicate_trigger_reported_by_alignment_checker :
    validate_manifest_structure M_dup_trigger = .ok [] ∧
    validate_trigger_uniqueness
      (asObjD ((jlookup M_dup_trigger "skills").getD .null)) =
      .ok ["duplicate trigger `Scaffold  Project` shared by `flows` and `core-build`"] := by
  decide

/-- Claim C5, counterexample: a manifest that passes every shape check but
stores the integer `42` as a canonical command record makes
`validate_manifest_structure` raise (`config.get("owner")` on a non-dict),
instead of returning an error list. -/
theorem c5_counterexample_validator_raises_on_nondict_record :
    validate_manifest_structure M_nondict_record =
      .error "AttributeError: value has no attribute `get`" := by
  decide

/-- A second raise path of `validate_manifest_structure`, beyond the
`AttributeError` of the C5 counterexample: even with every record a dict,
an unhashable owner value (here the empty list) makes the set-membership
test `owner not in canonical_agents` raise `TypeError`; an unhashable
policy `primary` value raises the same way at
`primary not in canonical_skills`. -/
theorem validator_raises_typeerror_on_unhashable_owner :
    validate_manifest_structure M_list_owner =
      .error "TypeError: unhashable type: `list`" := by
  decide

/-- Claim C5, amended: whenever every canonical command record, canonical
skill record, and command-policy entry of the manifest dictionary is itself
a dictionary, and the owner values of the command records and primary
values of the policy entries are hashable (not lists or dicts),
`validate_manifest_structure` never raises and returns an ordered list of
error strings (empty meaning valid). -/
theorem c5_validator_returns_list_on_wellformed_records (manifest : JObj)
    (h : records_dicts_and_hashable manifest) :
    ∃ errors, validate_manifest_structure manifest = .ok errors :=
  validate_manifest_structure_total manifest h

theorem c5_validator_returns_list_on_wellformed_records_witness :
    records_dicts_and_hashable M_ok ∧
      ∃ errors, validate_manifest_structure M_ok = .ok errors :=
  ⟨by decide, c5_validator_returns_list_on_wellformed_records M_ok (by decide)⟩

/-- Claim C6: `validate_trigger_uniqueness` normalises each trigger by
lowercasing and collapsing internal whitespace (`normalizeTrigger`), and a
registry of exactly two distinct skills whose triggers normalise to the same
phrase yields exactly one duplicate-trigger error naming both skills. -/
theorem c6_trigger_uniqueness_exactly_one_duplicate (s1 s2 t1 t2 : String)
    (hdistinct : s1 ≠ s2)
    (hnorm : normalizeTrigger t1 = normalizeTrigger t2) :
    validate_trigger_uniqueness
      [("canonical", .obj
        [(s1, .obj [("triggers", .arr [.str t1])]),
          (s2, .obj [("triggers", .arr [.str t2])])])] =
      .ok ["duplicate trigger `" ++ t2 ++ "` shared by `" ++ s2 ++ "` and `" ++
        s1 ++ "`"] :=
  trigger_uniqueness_two_skills s1 s2 t1 t2 hdistinct hnorm

theorem c6_trigger_uniqueness_exactly_one_duplicate_witness :
    validate_trigger_uniqueness
      [("canonical", .obj
        [("core-build", .obj [("triggers", .arr [.str "scaffold project"])]),
          ("flows", .obj [("triggers", .arr [.str "Scaffold  Project"])])])] =
      .ok ["duplicate trigger `Scaffold  Project` shared by `flows` and `core-build`"] := by
  have h := c6_trigger_uniqueness_exactly_one_duplicate "core-build" "flows"
    "scaffold project" "Scaffold  Project" (by decide) (by decide)
  exact h.trans (by decide)

/-- Claim C7: removing one canonical command from an otherwise-valid
manifest while `command_policy` keeps its key makes
`validate_manifest_structure` return exactly the one policy-keys mismatch
error and nothing else. -/
theorem c7_removing_command_single_mismatch_error (m : JObj) (c : String)
    (hvalid : validate_manifest_structure m = .ok [])
    (hc : c ∈ (m_commands_canon m).map Prod.fst) :
    validate_manifest_structure (remove_canonical_command m c) =
      .ok (policy_keys_errors (m_command_policy m)
        ((m_commands_canon (remove_canonical_command m c)).map Prod.fst)) ∧
    (policy_keys_errors (m_command_policy m)
      ((m_commands_canon (remove_canonical_command m c)).map Prod.fst)).length
      = 1 :=
  remove_command_policy_mismatch m c hvalid hc

theorem c7_removing_command_single_mismatch_error_witness :
    validate_manifest_structure M_ok = .ok [] ∧
    validate_manifest_structure (remove_canonical_command M_ok "audit-crew") =
      .ok ["`skills.command_policy` keys must match canonical commands: expected ['build-crew'], got ['audit-crew', 'build-crew']"] := by
  have h := c7_removing_command_single_mismatch_error M_ok "audit-crew"
    (by decide) (by decide)
  exact ⟨by decide, h.1.trans (by decide)⟩

/-- Claim C8: for a command-policy entry whose optional list is a string
list, the validator's per-entry check emits the explicit "optional includes
primary" error exactly when the optional list contains the entry's own
primary skill; optional lists not containing the primary and referencing
only canonical skills never produce such an error. -/
theorem c8_optional_includes_primary_error (canonical_skills : List String)
    (name : String) (policy : JObj) (optional_skills : List String)
    (primary_skill : String)
    (hprimary : jlookup policy "primary" = some (.str primary_skill))
    (hoptional : jlookup policy "optional" =
      some (.arr (optional_skills.map JValue.str))) :
    (primary_skill ∈ optional_skills →
      ("command policy `" ++ name ++ "` optional includes primary skill `" ++
        primary_skill ++ "`") ∈
        policy_entry_errs canonical_skills (name, .obj policy)) ∧
    ((primary_skill ∉ optional_skills ∧
        ∀ s ∈ optional_skills, s ∈ canonical_skills) →
      ∀ q, ("command policy `" ++ name ++ "` optional includes primary skill `" ++
        q ++ "`") ∉ policy_entry_errs canonical_skills (name, .obj policy)) ∧
    check_policy_entries canonical_skills [(name, .obj policy)] =
      .ok (policy_entry_errs canonical_skills (name, .obj policy)) := by
  obtain ⟨hin, hout⟩ := policy_entry_optional_includes_primary canonical_skills
    name policy optional_skills primary_skill hprimary hoptional
  refine ⟨hin, hout, ?_⟩
  rw [check_policy_entries_eq_ok canonical_skills [(name, .obj policy)]
    (by
      intro p hp
      simp at hp
      rw [hp]
      exact ⟨rfl, by simp [jgetOpt, hprimary, isHashableOpt]⟩)]
  simp

theorem c8_optional_includes_primary_error_witness :
    ("command policy `build-crew` optional includes primary skill `core-build`") ∈
      policy_entry_errs ["core-build", "flows"]
        ("build-crew", .obj
          [("primary", .str "core-build"),
            ("optional", .arr [.str "core-build"])]) :=
  (c8_optional_includes_primary_error ["core-build", "flows"] "build-crew"
    [("primary", .str "core-build"), ("optional", .arr [.str "core-build"])]
    ["core-build"] "core-build" rfl rfl).1 (by decide)

/-- Claim C9: on a manifest whose sections are present and whose entity
records carry the projected keys, `build_runtime_registry` returns exactly
the reduced projection `spec_registry`: owner-only commands,
description-only agents, owners+triggers skills, `command_policy` verbatim,
`schema_version` and `phase` carried over, and every section in the
manifest's own insertion order. -/
theorem c9_registry_is_reduced_projection (manifest cs ag sk cc ac sc : JObj)
    (sv ph cp : JValue)
    (h1 : jlookup manifest "commands" = some (.obj cs))
    (h2 : jlookup cs "canonical" = some (.obj cc))
    (h3 : jlookup manifest "agents" = some (.obj ag))
    (h4 : jlookup ag "canonical" = some (.obj ac))
    (h5 : jlookup manifest "skills" = some (.obj sk))
    (h6 : jlookup sk "canonical" = some (.obj sc))
    (h7 : jlookup manifest "schema_version" = some sv)
    (h8 : jlookup manifest "phase" = some ph)
    (h9 : jlookup sk "command_policy" = some cp)
    (hcc : ∀ p ∈ cc, (isObjB p.2 && (jgetOpt p.2 "owner").isSome) = true)
    (hac : ∀ p ∈ ac, (isObjB p.2 && (jgetOpt p.2 "description").isSome) = true)
    (hsc : ∀ p ∈ sc,
      (isObjB p.2 && (jgetOpt p.2 "owners").isSome &&
        (jgetOpt p.2 "triggers").isSome) = true) :
    build_runtime_registry manifest = .ok (spec_registry manifest) :=
  build_runtime_registry_eq_spec manifest cs ag sk cc ac sc sv ph cp
    h1 h2 h3 h4 h5 h6 h7 h8 h9 hcc hac hsc

theorem c9_registry_is_reduced_projection_witness :
    build_runtime_registry M_ok = .ok (spec_registry M_ok) :=
  c9_registry_is_reduced_projection M_ok _ _ _ _ _ _ _ _ _
    rfl rfl rfl rfl rfl rfl rfl rfl rfl (by decide) (by decide) (by decide)

/-- Claim C10: for every text containing the install begin marker followed
by a later end marker, and every manifest whose entity names avoid the
marker strings, extracting the install block from the result of
`apply_generated_install_block` returns exactly `render_install_block` of
the manifest — a freshly applied block always compares equal in the drift
check. -/
theorem c10_apply_then_extract_is_render (manifest : JObj) (text : List Char)
    (S A W C : List String)
    (hS : skill_canonical_names manifest = .ok S)
    (hA : agent_canonical_names manifest = .ok A)
    (hW : workflow_names manifest = .ok W)
    (hC : command_canonical_names manifest = .ok C)
    (hfree : ∀ n ∈ S ++ A ++ W ++ C,
      findFrom INSTALL_BLOCK_BEGIN n.data = none ∧
        findFrom INSTALL_BLOCK_END n.data = none)
    (start d : Nat)
    (hstart : findFrom INSTALL_BLOCK_BEGIN text = some start)
    (hend : findFrom INSTALL_BLOCK_END (text.drop start) = some d) :
    ∃ out block,
      apply_generated_install_block text manifest = .ok out ∧
      render_install_block manifest = .ok block ∧
      extract_block out INSTALL_BLOCK_BEGIN INSTALL_BLOCK_END = .ok block :=
  apply_extract_roundtrip manifest text S A W C hS hA hW hC hfree start d
    hstart hend

theorem c10_apply_then_extract_is_render_witness :
    ∃ out block,
      apply_generated_install_block install_text0 M_ok = .ok out ∧
      render_install_block M_ok = .ok block ∧
      extract_block out INSTALL_BLOCK_BEGIN INSTALL_BLOCK_END = .ok block :=
  c10_apply_then_extract_is_render M_ok install_text0
    ["core-build", "flows"] ["builder"] ["new-project"]
    ["build-crew", "audit-crew"] rfl rfl rfl rfl (by decide) 12 56
    (by decide) (by decide)
